import Mathlib

/-
Verification of the yard simulation and assignment engine (class
`YardSimulator`, file `src/lib/yardSimulator.ts`) of the
muttom-train-orchestra repository, against its natural-language
specification.

Shallow embedding conventions:
  * TypeScript `Record<string, T>` maps become association lists
    `List (String × T)` with unique keys; `m[k] = v` becomes `setA`
    (replace-first-or-append, matching JS object insertion-order
    semantics) and reads become `getA` (first match).
  * JS numbers used as integers (scores, fitness, mileage, timestamps)
    become `Int`; JS numbers used as fractions (Math.random() draws,
    simulation speed, coordinates, distances) become `Rat`.
  * `Date.now()` and `Math.random()` are modelled as explicit external
    inputs ("ext" records) passed to each operation.
  * `Math.sqrt` is modelled as an uninterpreted function `sqrtFn`
    carried in the simulation context; no claim depends on its value.
  * JS truthiness on optional numbers and strings (`x || d`, where 0 and
    "" are falsy) is modelled faithfully by `jsOrInt` / `jsOrString`.
    Truthiness tests on `occupiedBy` fields (always engine-generated,
    non-empty train ids) are modelled as `Option.isSome`.
  * `setTimeout` callbacks (inspection/repair timers and auto-assign
    pacing delays) re-enter the engine later; they are modelled as
    separate steps of the `Reachable` relation, which allows these
    entry points to fire at any time with any arguments - a superset of
    the schedulable behaviours, so invariants proved over `Reachable`
    hold for every real execution trace.
-/

/-- Lifecycle status of a train, from the `Train` interface. -/
inductive TrainStatus
  | arriving | queued | inspection | moving | parked | workshop | test | departed
deriving DecidableEq

/-- Train orientation, from the `Train` interface. -/
inductive TrainOrientation
  | north | south | east | west
deriving DecidableEq

/-- Siding slot letter: slot `a` is the front position, `b` the rear. -/
inductive Slot
  | a | b
deriving DecidableEq

/-- Qualitative blocking risk of a siding slot. -/
inductive Risk
  | low | medium | high
deriving DecidableEq

/-- Status of an inspection bay (`'free' | 'occupied' | 'cleaning'`). -/
inductive BayStatus
  | free | occupied | cleaning
deriving DecidableEq

/-- Status of a workshop line (`'free' | 'occupied' | 'maintenance'`). -/
inductive WsStatus
  | free | occupied | maintenance
deriving DecidableEq

/-- Event severity (`'info' | 'warning' | 'error' | 'success'`). -/
inductive Severity
  | info | warning | error | success
deriving DecidableEq

/-- Event type vocabulary of the `YardEvent` interface. -/
inductive EventType
  | trainCreated | trainMoved | trainUpdated | switchChanged
  | inspectionResult | workshopUpdated | logNew | planPreview
  | planStart | planStep | planComplete | errorEvent | lockAcquired | lockReleased
deriving DecidableEq

/-- One task of a train's job card. -/
structure JobTask where
  id : String
  desc : String
  done : Bool
deriving DecidableEq

/-- A train's job card: an ordered list of repair tasks. -/
structure JobCard where
  tasks : List JobTask
deriving DecidableEq

/-- The train record of the engine (interface `Train`). -/
structure Train where
  id : String
  number : String
  status : TrainStatus
  locationNodeId : String
  orientation : TrainOrientation
  fitness : Int
  mileage : Int
  jobCard : JobCard
  failures : List String
  priority : Bool
  departSoon : Bool
  arrivalTime : Int
  lastUpdated : Int
deriving DecidableEq

/-- Siding-slot metadata carried on a topology node (`node.metadata`). -/
structure NodeMetadata where
  sidingId : String
  slot : Slot
  reverseCost : Option Int
deriving DecidableEq

/-- A topology node (interface `Node`); only the fields the engine reads. -/
structure Node where
  id : String
  x : Rat
  y : Rat
  label : Option String
  metadata : Option NodeMetadata
deriving DecidableEq

/-- The static yard topology (interface `YardDefinition`), supplied once
at engine construction and never mutated. -/
structure YardDefinition where
  nodes : List (String × Node)
  inspectionBays : List String
  workshopLines : List String
  sidingSlots : List String
  entryPoints : List String
  exitPoints : List String
deriving DecidableEq

/-- An inspection bay resource (interface `InspectionBay`). -/
structure InspectionBay where
  id : String
  name : String
  nodeId : String
  occupiedBy : Option String
  inspectionStartTime : Option Int
  inspectionDuration : Int
  status : BayStatus
deriving DecidableEq

/-- A workshop line resource (interface `WorkshopLine`). -/
structure WorkshopLine where
  id : String
  name : String
  nodeId : String
  occupiedBy : Option String
  specialization : Option String
  capacity : Int
  status : WsStatus
deriving DecidableEq

/-- A siding slot resource (interface `SidingSlot`). -/
structure SidingSlot where
  id : String
  sidingId : String
  slot : Slot
  occupiedBy : Option String
  reverseCost : Option Int
  blockingRisk : Option Risk
deriving DecidableEq

/-- A ranked assignment suggestion (interface `AssignmentRecommendation`). -/
structure AssignmentRecommendation where
  targetId : String
  targetType : String
  slot : Option Slot
  score : Int
  reverseCost : Int
  distanceEstimate : Rat
  blockingRisk : Risk
  ETAToPark : Rat
  estimatedShuntSteps : Int
  reasoning : List String
  warnings : List String
deriving DecidableEq

/-- Heterogeneous `data` payloads attached to events, one constructor per
payload shape used by the engine. -/
inductive EventData
  | train (t : Train)
  | move (fromNode toNode : String)
  | inspection (bayId : String) (passed : Bool)
  | recs (recommendations : List AssignmentRecommendation)
  | sidingTarget (targetId : String) (slot : Slot)
  | workshopTarget (workshopId : String)
deriving DecidableEq

/-- An immutable domain event (interface `YardEvent`). -/
structure YardEvent where
  id : String
  timestamp : Int
  type : EventType
  trainId : Option String
  message : String
  data : Option EventData
  severity : Severity
deriving DecidableEq

/-- The aggregate yard state (interface `YardState`).  `lockedSegments`
and `activePlans` are carried for completeness; the engine never touches
them after construction. -/
structure YardState where
  trains : List (String × Train)
  inspectionBays : List (String × InspectionBay)
  workshopLines : List (String × WorkshopLine)
  sidingSlots : List (String × SidingSlot)
  lockedSegments : List String
  eventLog : List YardEvent
  simulationSpeed : Rat
  lastUpdate : Int
deriving DecidableEq

/-- The caller-supplied part of a train record (`Partial<Train>` as read
by `enqueueTrain`; the other `Train` fields are ignored by the source). -/
structure TrainInput where
  number : Option String
  fitness : Option Int
  mileage : Option Int
  jobCard : Option JobCard
  failures : Option (List String)
  priority : Option Bool
  departSoon : Option Bool
deriving DecidableEq

/-- The empty train input (`{}` in the source). -/
def TrainInput.empty : TrainInput :=
  ⟨none, none, none, none, none, none, none⟩

/-- Simulation context: the immutable topology plus the square-root
function used by `calculateDistance` (uninterpreted stand-in for
`Math.sqrt`). -/
structure SimContext where
  defn : YardDefinition
  sqrtFn : Rat → Rat

/-- External inputs consumed by one `emitEvent`-containing operation:
the current clock value and a fresh random event id. -/
structure AssignExt where
  now : Int
  evId : String
deriving DecidableEq

/-- External inputs consumed by `enqueueTrain`: clock, random id suffix,
event id, and the two `Math.random()` draws for fitness and mileage. -/
structure EnqueueExt where
  now : Int
  idSuffix : String
  evId : String
  randF : Rat
  randM : Rat
deriving DecidableEq

/-- External inputs consumed by `completeInspection`: clock, the
pass/fail `Math.random()` draw, two event ids, and the external inputs
used by the queued-train rescan it triggers. -/
structure CompleteInspectionExt where
  now : Int
  rand : Rat
  evResult : String
  evPreview : String
  queueExts : List AssignExt
deriving DecidableEq

/-- External inputs consumed by `completeWorkshop`: clock and two event
ids. -/
structure CompleteWorkshopExt where
  now : Int
  evUpdated : String
  evPreview : String
deriving DecidableEq

/-- Command type vocabulary of the `SimulatorCommand` interface. -/
inductive CommandType
  | createTrain | assignTrain | removeTrain | previewPlan | executePlan
  | pause | resume | speedChange
deriving DecidableEq

/-- The `data` record of a `SimulatorCommand`, split by usage: train
attributes for `create_train`, target fields for `assign_train`, and the
speed multiplier for `speed_change`. -/
structure CommandData where
  train : TrainInput
  targetType : Option String
  targetId : Option String
  slot : Option Slot
  speed : Option Rat
deriving DecidableEq

/-- An externally issued command (interface `SimulatorCommand`). -/
structure SimulatorCommand where
  type : CommandType
  trainId : Option String
  data : Option CommandData
deriving DecidableEq

/-- External inputs consumed by `processCommand`, covering whichever
branch the command takes. -/
structure CommandExt where
  enq : EnqueueExt
  assign : AssignExt
deriving DecidableEq

/-- Read a key from an association list (JS `m[k]`), first match. -/
def getA {α : Type} (m : List (String × α)) (k : String) : Option α :=
  (m.find? (fun p => p.1 == k)).map (fun p => p.2)

/-- Write a key into an association list (JS `m[k] = v`): replace the
first entry with that key in place, else append.  On unique-key lists
this is exactly JS object assignment (insertion order preserved,
overwrite keeps the original position). -/
def setA {α : Type} : List (String × α) → String → α → List (String × α)
  | [], k, v => [(k, v)]
  | p :: rest, k, v => if p.1 == k then (k, v) :: rest else p :: setA rest k v

/-- The values of an association list (JS `Object.values(m)`),
in insertion order. -/
def valuesA {α : Type} (m : List (String × α)) : List α :=
  m.map (fun p => p.2)

/-- The keys of an association list (JS `Object.keys(m)`). -/
def keysA {α : Type} (m : List (String × α)) : List String :=
  m.map (fun p => p.1)

/-- JS `x || d` on an optional number: `undefined` and `0` are falsy. -/
def jsOrInt (x : Option Int) (d : Int) : Int :=
  match x with
  | none => d
  | some v => if v = 0 then d else v

/-- JS `x || d` on an optional string: `undefined` and `""` are falsy. -/
def jsOrString (x : Option String) (d : String) : String :=
  match x with
  | none => d
  | some s => if s = "" then d else s

/-- Value of the leading digit run of a character list (helper for
`parseSidingNum`). -/
def leadDigits : List Char → Nat → Nat
  | [], acc => acc
  | c :: cs, acc =>
      if c.isDigit then leadDigits cs (acc * 10 + (c.toNat - 48)) else acc

/-- JS `parseInt(sidingId.substring(1))`.  Parses the leading digit run
after the first character, exactly as `parseInt` does on non-negative
input.  When no digit leads, `parseInt` gives NaN and every comparison
`NaN > c` the engine performs is false, which coincides with the 0
returned here. -/
def parseSidingNum (sidingId : String) : Nat :=
  leadDigits (sidingId.data.drop 1) 0

/-- Blocking risk of a siding slot, computed once at state
construction (body of `calculateBlockingRisk`, over the already parsed
siding number).  Slot `a` does not block `b`; higher-numbered sidings
are easier to access. -/
def calculateBlockingRiskNum (sidingNum : Nat) (slot : Slot) : Risk :=
  match slot with
  | Slot.a => if sidingNum > 8 then Risk.low else if sidingNum > 4 then Risk.medium else Risk.high
  | Slot.b => if sidingNum > 8 then Risk.medium else Risk.high

/-- Blocking risk of a siding slot by siding id
(`calculateBlockingRisk` applied to the parsed siding number). -/
def calculateBlockingRisk (sidingId : String) (slot : Slot) : Risk :=
  calculateBlockingRiskNum (parseSidingNum sidingId) slot

/-- The initial aggregate state built by the constructor
(`initializeState` in the source).  `now` stands for the `Date.now()`
call.  A bay or workshop node absent from `defn.nodes` contributes its
default name (in JS the `.label` access would throw; the engine is only
ever constructed with a closed topology).  The three registry
builders are split out as named definitions. -/
def initBayEntry (defn : YardDefinition) (p : Nat × String) : InspectionBay :=
  let nodeId := p.2
  let label := match getA defn.nodes nodeId with
    | some node => node.label
    | none => none
  { id := nodeId
    name := jsOrString label ("IL-" ++ toString (p.1 + 1))
    nodeId := nodeId
    occupiedBy := none
    inspectionStartTime := none
    inspectionDuration := 5 * 60 * 1000
    status := BayStatus.free }

/-- The inspection bay registry built at construction. -/
def initBays (defn : YardDefinition) : List (String × InspectionBay) :=
  (defn.inspectionBays.enum).foldl (fun m p => setA m p.2 (initBayEntry defn p)) []

/-- The workshop line registry built at construction: every declared
workshop node becomes a free line; only node `WL4` receives the
`wheel-alignment` specialization. -/
def initWsEntry (defn : YardDefinition) (p : Nat × String) : WorkshopLine :=
  let nodeId := p.2
  let label := match getA defn.nodes nodeId with
    | some node => node.label
    | none => none
  { id := nodeId
    name := jsOrString label ("WL-" ++ toString (p.1 + 1))
    nodeId := nodeId
    occupiedBy := none
    specialization := if nodeId = "WL4" then some "wheel-alignment" else none
    capacity := 1
    status := WsStatus.free }

/-- The workshop line registry built at construction. -/
def initWs (defn : YardDefinition) : List (String × WorkshopLine) :=
  (defn.workshopLines.enum).foldl (fun m p => setA m p.2 (initWsEntry defn p)) []

/-- The siding slot registry built at construction from the node
metadata; nodes without metadata are skipped. -/
def initSlotEntry (defn : YardDefinition) (nodeId : String) : Option SidingSlot :=
  match getA defn.nodes nodeId with
  | some node =>
      match node.metadata with
      | some md =>
          some { id := nodeId
                 sidingId := md.sidingId
                 slot := md.slot
                 occupiedBy := none
                 reverseCost := md.reverseCost
                 blockingRisk := some (calculateBlockingRisk md.sidingId md.slot) }
      | none => none
  | none => none

/-- The siding slot registry built at construction (the source's
`if (metadata)` guard becomes the `Option` returned by
`initSlotEntry`). -/
def initSlots (defn : YardDefinition) : List (String × SidingSlot) :=
  defn.sidingSlots.foldl (fun m nodeId =>
    match initSlotEntry defn nodeId with
    | some v => setA m nodeId v
    | none => m) []

def initState (defn : YardDefinition) (now : Int) : YardState :=
  { trains := []
    inspectionBays := initBays defn
    workshopLines := initWs defn
    sidingSlots := initSlots defn
    lockedSegments := []
    eventLog := []
    simulationSpeed := 1
    lastUpdate := now }

/-- Append a domain event to the log (`emitEvent`).  Handler
notification is synchronous and does not touch the state. -/
def emitEvent (etype : EventType) (tid : Option String) (msg : String)
    (sev : Severity) (dat : Option EventData) (evId : String) (now : Int)
    (s : YardState) : YardState :=
  { s with eventLog := s.eventLog ++
      [{ id := evId, timestamp := now, type := etype, trainId := tid,
         message := msg, data := dat, severity := sev }] }

/-- Straight-line distance proxy between two topology nodes
(`calculateDistance`); 999 when either node is missing. -/
def calculateDistance (ctx : SimContext) (fromNodeId toNodeId : String) : Rat :=
  match getA ctx.defn.nodes fromNodeId, getA ctx.defn.nodes toNodeId with
  | some fromNode, some toNode =>
      let dx := toNode.x - fromNode.x
      let dy := toNode.y - fromNode.y
      ctx.sqrtFn (dx * dx + dy * dy)
  | _, _ => mkRat 999 1

/-- Estimated time to park (`calculateETA`): distance over a fixed
average speed of 50, converted to milliseconds. -/
def calculateETA (ctx : SimContext) (fromNodeId toNodeId : String) : Rat :=
  calculateDistance ctx fromNodeId toNodeId / mkRat 50 1 * mkRat 1000 1

/-- Desirability score of a siding slot for a train
(`calculateSidingScore`). -/
def calculateSidingScore (train : Train) (slot : SidingSlot) : Int :=
  let score : Int := 100
  let score := if train.departSoon && (slot.slot == Slot.a) then score + 20 else score
  let score := if train.departSoon && (slot.slot == Slot.b) then score - 10 else score
  let score := score - jsOrInt slot.reverseCost 1 * 5
  let score := if slot.blockingRisk == some Risk.low then score + 10 else score
  let score := if slot.blockingRisk == some Risk.high then score - 10 else score
  let sidingNum : Int := parseSidingNum slot.sidingId
  let score := if train.priority then score + (13 - sidingNum) * 2 else score
  max 0 score

/-- Desirability score of a workshop line for a train
(`calculateWorkshopScore`). -/
def calculateWorkshopScore (train : Train) (workshop : WorkshopLine) : Int :=
  let score : Int := 100
  let score := if train.failures.contains "wheel-alignment" &&
      (workshop.specialization == some "wheel-alignment") then score + 50 else score
  let score := if train.priority && (workshop.id == "WL1") then score + 10 else score
  score

/-- Explanatory reasons attached to a siding recommendation
(`generateSidingReasoning`). -/
def generateSidingReasoning (train : Train) (slot : SidingSlot) : List String :=
  (if slot.slot == Slot.a then ["Front position - easier departure"] else []) ++
  (if slot.blockingRisk == some Risk.low then ["Low blocking risk"] else []) ++
  (if train.departSoon && (slot.slot == Slot.a) then ["Suitable for morning departure"] else []) ++
  (if train.priority then ["Priority train - close to exit"] else [])

/-- Warnings attached to a siding recommendation
(`generateSidingWarnings`). -/
def generateSidingWarnings (train : Train) (slot : SidingSlot) : List String :=
  (if slot.blockingRisk == some Risk.high then ["High blocking risk for future operations"] else []) ++
  (if (slot.slot == Slot.b) && train.departSoon then ["Rear position may delay morning departure"] else []) ++
  (if jsOrInt slot.reverseCost 0 > 2 then ["High reverse cost for positioning"] else [])

/-- Explanatory reasons attached to a workshop recommendation
(`generateWorkshopReasoning`). -/
def generateWorkshopReasoning (train : Train) (workshop : WorkshopLine) : List String :=
  (if (workshop.specialization == some "wheel-alignment") &&
      train.failures.contains "wheel-alignment"
   then ["Specialized for wheel alignment repairs"] else []) ++
  (if workshop.id == "WL1" then ["Primary workshop line"] else [])

/-- Ranked siding recommendations for a train
(`generateSidingRecommendations`): every unoccupied siding slot is
scored; the source's forEach-with-push loop is written as filter+map;
results are sorted descending by score and cut to the top 5.  The
source's `sort((a, b) => b.score - a.score)` is a stable sort; it is
modelled as the stable `insertionSort`, which yields the same list. -/
def generateSidingRecommendations (ctx : SimContext) (trainId : String)
    (s : YardState) : List AssignmentRecommendation :=
  match getA s.trains trainId with
  | none => []
  | some train =>
      let recommendations := ((valuesA s.sidingSlots).filter
          (fun slot => !slot.occupiedBy.isSome)).map (fun slot =>
        { targetId := slot.id
          targetType := "siding"
          slot := some slot.slot
          score := calculateSidingScore train slot
          reverseCost := jsOrInt slot.reverseCost 1
          distanceEstimate := calculateDistance ctx train.locationNodeId slot.id
          blockingRisk := slot.blockingRisk.getD Risk.medium
          ETAToPark := calculateETA ctx train.locationNodeId slot.id
          estimatedShuntSteps := if slot.slot == Slot.b then 1 else 0
          reasoning := generateSidingReasoning train slot
          warnings := generateSidingWarnings train slot })
      (recommendations.insertionSort (fun a b => b.score ≤ a.score)).take 5

/-- Ranked workshop recommendations for a train
(`generateWorkshopRecommendations`): every unoccupied workshop line is
scored, except that a train needing wheel alignment is restricted to
lines specialized in it; sorted descending by score, no truncation. -/
def generateWorkshopRecommendations (ctx : SimContext) (trainId : String)
    (s : YardState) : List AssignmentRecommendation :=
  match getA s.trains trainId with
  | none => []
  | some train =>
      let needsWheelAlignment := train.failures.contains "wheel-alignment"
      let recommendations := ((valuesA s.workshopLines).filter (fun workshop =>
          !workshop.occupiedBy.isSome &&
          !(needsWheelAlignment && !(workshop.specialization == some "wheel-alignment")))).map
        (fun workshop =>
        { targetId := workshop.id
          targetType := "workshop"
          slot := none
          score := calculateWorkshopScore train workshop
          reverseCost := 1
          distanceEstimate := calculateDistance ctx train.locationNodeId workshop.nodeId
          blockingRisk := Risk.low
          ETAToPark := calculateETA ctx train.locationNodeId workshop.nodeId
          estimatedShuntSteps := 0
          reasoning := generateWorkshopReasoning train workshop
          warnings := [] })
      recommendations.insertionSort (fun a b => b.score ≤ a.score)

/-- The generated train id (`train_` plus timestamp plus random
suffix). -/
def newTrainId (ext : EnqueueExt) : String :=
  "train_" ++ toString ext.now ++ "_" ++ ext.idSuffix

/-- The train record built by `enqueueTrain` from the caller input and
the external draws: supplied truthy fields are kept, the rest are
defaulted. -/
def newTrain (input : TrainInput) (ext : EnqueueExt) (s : YardState) : Train :=
  { id := newTrainId ext
    number := jsOrString input.number ("T" ++ toString (s.trains.length + 1))
    status := TrainStatus.arriving
    locationNodeId := "E1"
    orientation := TrainOrientation.east
    fitness := jsOrInt input.fitness (ext.randF * mkRat 100 1).floor
    mileage := jsOrInt input.mileage (ext.randM * mkRat 50000 1).floor
    jobCard := input.jobCard.getD { tasks := [] }
    failures := input.failures.getD []
    priority := input.priority.getD false
    departSoon := input.departSoon.getD false
    arrivalTime := ext.now
    lastUpdated := ext.now }

/-- Create a train from caller-supplied attributes (`enqueueTrain`).
Returns the generated id together with the new state.  The scheduled
`autoAssignToInspection` call (a 2-second `setTimeout`) is a separate
later step of `Reachable`. -/
def enqueueTrain (input : TrainInput) (ext : EnqueueExt) (s : YardState) :
    String × YardState :=
  let trainId := newTrainId ext
  let train := newTrain input ext s
  let s1 := { s with trains := setA s.trains trainId train }
  let msg := "Train " ++ train.number ++ " arrived at entry point"
  (trainId, emitEvent EventType.trainCreated (some trainId) msg Severity.info
    (some (EventData.train train)) ext.evId ext.now s1)

/-- Claim a free inspection bay for a train
(`assignTrainToInspection`).  The scheduled `completeInspection` call is
a separate later step of `Reachable`. -/
def assignTrainToInspection (trainId bayId : String) (ext : AssignExt)
    (s : YardState) : YardState :=
  match getA s.trains trainId, getA s.inspectionBays bayId with
  | some train, some bay =>
      if bay.status ≠ BayStatus.free then s
      else
        let train' := { train with
          status := TrainStatus.inspection
          locationNodeId := bayId
          lastUpdated := ext.now }
        let bay' := { bay with
          status := BayStatus.occupied
          occupiedBy := some trainId
          inspectionStartTime := some ext.now }
        let s1 := { s with
          trains := setA s.trains trainId train'
          inspectionBays := setA s.inspectionBays bayId bay' }
        let msg := "Train " ++ train.number ++ " moved to " ++ bay.name ++ " for inspection"
        emitEvent EventType.trainMoved (some trainId) msg Severity.info
          (some (EventData.move "E1" bayId)) ext.evId ext.now s1
  | _, _ => s

/-- Try to move an arriving train into the first free inspection bay, in
the declared bay order; queue it otherwise (`autoAssignToInspection`). -/
def autoAssignToInspection (ctx : SimContext) (trainId : String)
    (ext : AssignExt) (s : YardState) : YardState :=
  match getA s.trains trainId with
  | none => s
  | some train =>
      if train.status ≠ TrainStatus.arriving then s
      else
        let availableBay := ctx.defn.inspectionBays.find? (fun bayId =>
          match getA s.inspectionBays bayId with
          | some bay => bay.status == BayStatus.free
          | none => false)
        match availableBay with
        | some bayId => assignTrainToInspection trainId bayId ext s
        | none =>
            let train' := { train with status := TrainStatus.queued }
            let s1 := { s with trains := setA s.trains trainId train' }
            let msg := "Train " ++ train.number ++ " queued - all inspection bays occupied"
            emitEvent EventType.trainUpdated (some trainId) msg Severity.warning
              none ext.evId ext.now s1

/-- Re-run `autoAssignToInspection` for every train currently queued
(`processQueuedTrains`).  The queued list is captured once from the
incoming state, as in the source; each call sees the evolving state. -/
def processQueuedTrains (ctx : SimContext) (exts : List AssignExt)
    (s : YardState) : YardState :=
  let queuedTrains := (valuesA s.trains).filter
    (fun train => train.status == TrainStatus.queued)
  (queuedTrains.enum).foldl (fun st p =>
    autoAssignToInspection ctx p.2.id (exts.getD p.1 { now := 0, evId := "" }) st) s

/-- Finish an inspection (`completeInspection`): guarded on the bay
still being occupied by this exact train; frees the bay, draws the
stochastic pass/fail result, emits the result event and a plan-preview
event for the matching recommendation kind, then rescans queued trains.
The delayed auto-commit `setTimeout` calls are separate later steps of
`Reachable`. -/
def completeInspection (ctx : SimContext) (trainId bayId : String)
    (ext : CompleteInspectionExt) (s : YardState) : YardState :=
  match getA s.trains trainId, getA s.inspectionBays bayId with
  | some train, some bay =>
      if bay.occupiedBy ≠ some trainId then s
      else
        let passRate : Rat := if train.failures.length > 0 then mkRat 3 10 else mkRat 8 10
        let inspectionPassed : Bool := decide (ext.rand < passRate)
        let bay' := { bay with
          status := BayStatus.free
          occupiedBy := none
          inspectionStartTime := none }
        let train' := { train with
          status := TrainStatus.moving
          lastUpdated := ext.now }
        let s1 := { s with
          inspectionBays := setA s.inspectionBays bayId bay'
          trains := setA s.trains trainId train' }
        let msg1 := "Train " ++ train.number ++ " inspection " ++
          (if inspectionPassed then "passed" else "failed")
        let s2 := emitEvent EventType.inspectionResult (some trainId) msg1
          (if inspectionPassed then Severity.success else Severity.warning)
          (some (EventData.inspection bayId inspectionPassed)) ext.evResult ext.now s1
        let recommendations :=
          if inspectionPassed then generateSidingRecommendations ctx trainId s2
          else generateWorkshopRecommendations ctx trainId s2
        let msg2 := "Generated " ++ toString recommendations.length ++
          (if inspectionPassed then " siding recommendations for train "
           else " workshop recommendations for train ") ++ train.number
        let s3 := emitEvent EventType.planPreview (some trainId) msg2 Severity.info
          (some (EventData.recs recommendations)) ext.evPreview ext.now s2
        processQueuedTrains ctx ext.queueExts s3
  | _, _ => s

/-- Park a train in a siding slot (`assignTrainToSiding`): silently a
no-op when the train or slot is missing or the slot is occupied. The
source's unused third parameter is kept for signature fidelity. -/
def assignTrainToSiding (trainId slotId : String) (_slotArg : Option Slot)
    (ext : AssignExt) (s : YardState) : YardState :=
  match getA s.trains trainId, getA s.sidingSlots slotId with
  | some train, some sidingSlot =>
      if sidingSlot.occupiedBy.isSome then s
      else
        let train' := { train with
          status := TrainStatus.parked
          locationNodeId := slotId
          lastUpdated := ext.now }
        let slot' := { sidingSlot with occupiedBy := some trainId }
        let s1 := { s with
          trains := setA s.trains trainId train'
          sidingSlots := setA s.sidingSlots slotId slot' }
        let slotName := match sidingSlot.slot with | Slot.a => "a" | Slot.b => "b"
        let msg := "Train " ++ train.number ++ " parked in " ++
          sidingSlot.sidingId ++ "-" ++ slotName
        emitEvent EventType.trainMoved (some trainId) msg Severity.success
          (some (EventData.sidingTarget slotId sidingSlot.slot)) ext.evId ext.now s1
  | _, _ => s

/-- Send a train to a workshop line (`assignTrainToWorkshop`): same
silent exclusivity guard as the siding assignment.  The scheduled
`completeWorkshop` call is a separate later step of `Reachable`. -/
def assignTrainToWorkshop (trainId workshopId : String) (ext : AssignExt)
    (s : YardState) : YardState :=
  match getA s.trains trainId, getA s.workshopLines workshopId with
  | some train, some workshop =>
      if workshop.occupiedBy.isSome then s
      else
        let train' := { train with
          status := TrainStatus.workshop
          locationNodeId := workshopId
          lastUpdated := ext.now }
        let workshop' := { workshop with
          status := WsStatus.occupied
          occupiedBy := some trainId }
        let s1 := { s with
          trains := setA s.trains trainId train'
          workshopLines := setA s.workshopLines workshopId workshop' }
        let msg := "Train " ++ train.number ++ " sent to " ++ workshop.name
        emitEvent EventType.trainMoved (some trainId) msg Severity.info
          (some (EventData.workshopTarget workshopId)) ext.evId ext.now s1
  | _, _ => s

/-- Finish a repair (`completeWorkshop`): guarded on the workshop still
being occupied by this exact train; clears all failures, raises fitness
by 20 capped at 100, frees the workshop, emits the update event and a
siding plan-preview event.  The delayed auto-commit is a separate later
step of `Reachable`. -/
def completeWorkshop (ctx : SimContext) (trainId workshopId : String)
    (ext : CompleteWorkshopExt) (s : YardState) : YardState :=
  match getA s.trains trainId, getA s.workshopLines workshopId with
  | some train, some workshop =>
      if workshop.occupiedBy ≠ some trainId then s
      else
        let train' := { train with
          failures := []
          fitness := min 100 (train.fitness + 20)
          status := TrainStatus.moving
          lastUpdated := ext.now }
        let workshop' := { workshop with
          status := WsStatus.free
          occupiedBy := none }
        let s1 := { s with
          trains := setA s.trains trainId train'
          workshopLines := setA s.workshopLines workshopId workshop' }
        let msg1 := "Train " ++ train.number ++ " repairs completed at " ++ workshop.name
        let s2 := emitEvent EventType.workshopUpdated (some trainId) msg1
          Severity.success (some (EventData.workshopTarget workshopId)) ext.evUpdated ext.now s1
        let recommendations := generateSidingRecommendations ctx trainId s2
        let msg2 := "Generated " ++ toString recommendations.length ++
          " siding recommendations after repair"
        emitEvent EventType.planPreview (some trainId) msg2 Severity.info
          (some (EventData.recs recommendations)) ext.evPreview ext.now s2
  | _, _ => s

/-- The `assign_train` branch of `processCommand`: dispatch on the
target type, silently ignoring malformed targets. -/
def assignCommand (trainId : String) (d : CommandData) (ext : AssignExt)
    (s : YardState) : YardState :=
  if d.targetType == some "siding" then
    match d.targetId with
    | some targetId => assignTrainToSiding trainId targetId d.slot ext s
    | none => s
  else if d.targetType == some "workshop" then
    match d.targetId with
    | some targetId => assignTrainToWorkshop trainId targetId ext s
    | none => s
  else s

/-- The `speed_change` branch of `processCommand`: clamp the multiplier
into [0.1, 10].  A speed of 0 is falsy in JS (`command.data?.speed`)
and is ignored. -/
def speedCommand (d : CommandData) (s : YardState) : YardState :=
  match d.speed with
  | some v => if v = 0 then s
      else { s with simulationSpeed := max (mkRat 1 10) (min (mkRat 10 1) v) }
  | none => s

/-- The single external command entry point (`processCommand`).
Unimplemented command types fall through silently. -/
def processCommand (_ctx : SimContext) (command : SimulatorCommand)
    (ext : CommandExt) (s : YardState) : YardState :=
  match command.type with
  | CommandType.createTrain =>
      (enqueueTrain (match command.data with
        | some d => d.train
        | none => TrainInput.empty) ext.enq s).2
  | CommandType.assignTrain =>
      match command.trainId, command.data with
      | some trainId, some d => assignCommand trainId d ext.assign s
      | _, _ => s
  | CommandType.speedChange =>
      match command.data with
      | some d => speedCommand d s
      | none => s
  | _ => s

/-- States reachable by any interleaving of the engine's entry points:
the public API (`enqueueTrain`, `assignTrainToSiding`,
`assignTrainToWorkshop`, `processCommand`) and the timer-driven
re-entries (`autoAssignToInspection`, `completeInspection`,
`completeWorkshop`, and the inner `assignTrainToInspection`), each fired
with arbitrary arguments and external inputs - a superset of the
behaviours any real schedule can produce. -/
inductive Reachable (ctx : SimContext) : YardState → Prop
  | init (now : Int) : Reachable ctx (initState ctx.defn now)
  | enqueue (input : TrainInput) (ext : EnqueueExt) (s : YardState) :
      Reachable ctx s → Reachable ctx (enqueueTrain input ext s).2
  | autoAssign (trainId : String) (ext : AssignExt) (s : YardState) :
      Reachable ctx s → Reachable ctx (autoAssignToInspection ctx trainId ext s)
  | assignInspection (trainId bayId : String) (ext : AssignExt) (s : YardState) :
      Reachable ctx s → Reachable ctx (assignTrainToInspection trainId bayId ext s)
  | completeInspectionStep (trainId bayId : String) (ext : CompleteInspectionExt) (s : YardState) :
      Reachable ctx s → Reachable ctx (completeInspection ctx trainId bayId ext s)
  | assignSiding (trainId slotId : String) (slotArg : Option Slot) (ext : AssignExt) (s : YardState) :
      Reachable ctx s → Reachable ctx (assignTrainToSiding trainId slotId slotArg ext s)
  | assignWorkshop (trainId workshopId : String) (ext : AssignExt) (s : YardState) :
      Reachable ctx s → Reachable ctx (assignTrainToWorkshop trainId workshopId ext s)
  | completeWorkshopStep (trainId workshopId : String) (ext : CompleteWorkshopExt) (s : YardState) :
      Reachable ctx s → Reachable ctx (completeWorkshop ctx trainId workshopId ext s)
  | command (c : SimulatorCommand) (ext : CommandExt) (s : YardState) :
      Reachable ctx s → Reachable ctx (processCommand ctx c ext s)

/-- A small concrete topology for the concrete scenario states: one
entry node, one inspection bay, two workshop lines (WL4 specialized),
one siding slot. -/
def defn0 : YardDefinition :=
  { nodes := [
      ("E1", { id := "E1", x := 0, y := 0, label := some "Entry", metadata := none }),
      ("IL1", { id := "IL1", x := 10, y := 0, label := some "IL-1", metadata := none }),
      ("WL1", { id := "WL1", x := 20, y := 0, label := some "WL-1", metadata := none }),
      ("WL4", { id := "WL4", x := 20, y := 10, label := some "WL-4", metadata := none }),
      ("S2a", { id := "S2a", x := 30, y := 0, label := none,
                metadata := some { sidingId := "S2", slot := Slot.a, reverseCost := some 1 } })]
    inspectionBays := ["IL1"]
    workshopLines := ["WL1", "WL4"]
    sidingSlots := ["S2a"]
    entryPoints := ["E1"]
    exitPoints := [] }

/-- Concrete simulation context over `defn0`; the square-root stand-in
is a constant function (no claim depends on distance values). -/
def ctx0 : SimContext :=
  { defn := defn0, sqrtFn := fun _ => mkRat 0 1 }

/-- Caller input of the first scenario train (all numeric fields
supplied). -/
def input1 : TrainInput :=
  { number := some "T100", fitness := some 85, mileage := some 25000,
    jobCard := none, failures := none, priority := none, departSoon := none }

/-- Generated id of the first scenario train. -/
def tid1 : String := "train_0_a"

/-- State after creating the first scenario train. -/
def sArr : YardState :=
  (enqueueTrain input1
    { now := 0, idSuffix := "a", evId := "ev1", randF := mkRat 1 2, randM := mkRat 1 2 }
    (initState defn0 0)).2

/-- State after the first train is auto-assigned into bay IL1. -/
def sInsp : YardState :=
  autoAssignToInspection ctx0 tid1 { now := 0, evId := "ev2" } sArr

/-- External inputs of the scenario inspection completion: the pass
draw 0 is below the no-failure pass rate, so the inspection passes. -/
def extCI1 : CompleteInspectionExt :=
  { now := 0, rand := mkRat 0 1, evResult := "ev3", evPreview := "ev4", queueExts := [] }

/-- State after the first train's inspection completes: the bay is
freed while the train (status `moving`) still sits at the bay node. -/
def sMoving : YardState :=
  completeInspection ctx0 tid1 "IL1" extCI1 sInsp

/-- Caller input of the second scenario train. -/
def input2 : TrainInput :=
  { number := some "T101", fitness := some 70, mileage := some 30000,
    jobCard := none, failures := some ["brake"], priority := none, departSoon := none }

/-- Generated id of the second scenario train. -/
def tid2 : String := "train_1_b"

/-- State with the second train created while the first occupies IL1. -/
def sTwo : YardState :=
  (enqueueTrain input2
    { now := 1, idSuffix := "b", evId := "ev5", randF := mkRat 1 2, randM := mkRat 1 2 }
    sInsp).2

/-- State after the second train fails to find a free bay and is
queued. -/
def sQueued : YardState :=
  autoAssignToInspection ctx0 tid2 { now := 1, evId := "ev6" } sTwo

/-- State after the first train's inspection completes while the second
train is queued: IL1 is freed and `processQueuedTrains` runs over the
queued train. -/
def sAfter : YardState :=
  completeInspection ctx0 tid1 "IL1"
    { now := 2, rand := mkRat 0 1, evResult := "ev7", evPreview := "ev8",
      queueExts := [{ now := 2, evId := "ev9" }] } sQueued

/-- State after the first (moving) train is sent to workshop WL1. -/
def sWs : YardState :=
  assignTrainToWorkshop tid1 "WL1" { now := 3, evId := "ev10" } sMoving

/-- State after the workshop repair of the first train completes. -/
def sWsDone : YardState :=
  completeWorkshop ctx0 tid1 "WL1"
    { now := 4, evUpdated := "ev11", evPreview := "ev12" } sWs

/-- Caller input of a train carrying a wheel-alignment failure. -/
def inputWA : TrainInput :=
  { number := some "T102", fitness := some 60, mileage := some 10000,
    jobCard := none, failures := some ["wheel-alignment"], priority := none,
    departSoon := none }

/-- Generated id of the wheel-alignment train. -/
def tidWA : String := "train_4_c"

/-- State containing only the wheel-alignment train, just created. -/
def sWA : YardState :=
  (enqueueTrain inputWA
    { now := 4, idSuffix := "c", evId := "ev13", randF := mkRat 1 2, randM := mkRat 1 2 }
    (initState defn0 0)).2

/-- The per-train location conjunct of the engine invariant: a train in
a holding status sits at the entry node; a train in `inspection`,
`parked` or `workshop` status sits at a resource of the matching kind
that records it as occupant.  Trains in transient (`moving`) or unused
(`test`, `departed`) statuses are unconstrained. -/
@[reducible] def TrainLocOK (bays : List (String × InspectionBay))
    (ws : List (String × WorkshopLine)) (slots : List (String × SidingSlot))
    (t : Train) : Prop :=
  ((t.status = TrainStatus.arriving ∨ t.status = TrainStatus.queued) →
    t.locationNodeId = "E1") ∧
  (t.status = TrainStatus.inspection →
    ∃ p ∈ bays, p.2.occupiedBy = some t.id ∧ t.locationNodeId = p.1) ∧
  (t.status = TrainStatus.parked →
    ∃ p ∈ slots, p.2.occupiedBy = some t.id ∧ t.locationNodeId = p.1) ∧
  (t.status = TrainStatus.workshop →
    ∃ p ∈ ws, p.2.occupiedBy = some t.id ∧ t.locationNodeId = p.1)

/-- Location conservation over a whole state: every registered train
satisfies `TrainLocOK`. -/
@[reducible] def LocConservation (s : YardState) : Prop :=
  ∀ p ∈ s.trains, TrainLocOK s.inspectionBays s.workshopLines s.sidingSlots p.2

/-- The inductive engine invariant: unique keys in all four registries,
key/id agreement for trains, occupancy/status agreement for inspection
bays, and location conservation. -/
@[reducible] def EngineInv (s : YardState) : Prop :=
  (keysA s.trains).Nodup ∧
  (keysA s.inspectionBays).Nodup ∧
  (keysA s.workshopLines).Nodup ∧
  (keysA s.sidingSlots).Nodup ∧
  (∀ p ∈ s.trains, p.2.id = p.1) ∧
  (∀ p ∈ s.inspectionBays, p.2.occupiedBy.isSome → p.2.status = BayStatus.occupied) ∧
  (∀ p ∈ s.workshopLines, p.2.specialization = some "wheel-alignment" → p.1 = "WL4") ∧
  LocConservation s

/-- The resource keys (bay, workshop, siding slot) whose `occupiedBy`
is a given train id. -/
def resourceClaims (s : YardState) (tid : String) : List String :=
  (s.inspectionBays.filter (fun p => p.2.occupiedBy == some tid)).map (fun p => p.1) ++
  (s.workshopLines.filter (fun p => p.2.occupiedBy == some tid)).map (fun p => p.1) ++
  (s.sidingSlots.filter (fun p => p.2.occupiedBy == some tid)).map (fun p => p.1)

/-- Claim C2 exactly as the specification states it: every train either
holds no resource and sits at the entry node, or holds exactly one
resource and sits at it. -/
@[reducible] def OrigConservation (s : YardState) : Prop :=
  ∀ p ∈ s.trains,
    (resourceClaims s p.2.id = [] ∧ p.2.locationNodeId = "E1") ∨
    resourceClaims s p.2.id = [p.2.locationNodeId]

/-- Numeric level of a blocking risk, for comparisons: low 0,
medium 1, high 2. -/
def riskLevel : Risk → Nat
  | Risk.low => 0
  | Risk.medium => 1
  | Risk.high => 2

/-- The siding score formula exactly as the specification words it for
claim C6: 100, plus 20 for a departSoon train in slot a, minus 10 for a
departSoon train in slot b, minus reverseCost times 5, plus 10 for low
blocking risk, minus 10 for high, plus (13 - sidingNumber) times 2 for
a priority train, floored at 0.  (Comparison definition; the engine
definition is `calculateSidingScore`.) -/
def sidingScoreSpec (train : Train) (slot : SidingSlot) : Int :=
  max 0 (100
    + (if train.departSoon && (slot.slot == Slot.a) then 20 else 0)
    - (if train.departSoon && (slot.slot == Slot.b) then 10 else 0)
    - (slot.reverseCost.getD 0) * 5
    + (if slot.blockingRisk == some Risk.low then 10 else 0)
    - (if slot.blockingRisk == some Risk.high then 10 else 0)
    + (if train.priority then (13 - (parseSidingNum slot.sidingId : Int)) * 2 else 0))

/-- A concrete train with no special flags, used in score
counterexamples. -/
def trainPlain : Train :=
  { id := "t0", number := "T0", status := TrainStatus.moving,
    locationNodeId := "E1", orientation := TrainOrientation.east,
    fitness := 80, mileage := 1000, jobCard := { tasks := [] },
    failures := [], priority := false, departSoon := false,
    arrivalTime := 0, lastUpdated := 0 }

/-- A concrete unoccupied siding slot whose `reverseCost` is the number
0 (falsy in JS), used in the C6 counterexample. -/
def slotRC0 : SidingSlot :=
  { id := "S1a", sidingId := "S1", slot := Slot.a, occupiedBy := none,
    reverseCost := some 0, blockingRisk := some Risk.medium }

/-- A concrete unoccupied siding slot with `reverseCost` 1, used in
witnesses. -/
def slotRC1 : SidingSlot :=
  { id := "S9a", sidingId := "S9", slot := Slot.a, occupiedBy := none,
    reverseCost := some 1, blockingRisk := some Risk.low }

/-- Caller input supplying the explicit fitness value 0 (falsy in JS),
used in the C10 counterexample. -/
def inputFit0 : TrainInput :=
  { number := some "T7", fitness := some 0, mileage := some 25000,
    jobCard := none, failures := none, priority := none, departSoon := none }

/-- External inputs for the C10 scenarios: the fitness draw is 1/2, so
a defaulted fitness would be 50. -/
def extFit : EnqueueExt :=
  { now := 9, idSuffix := "z", evId := "ev20", randF := mkRat 1 2,
    randM := mkRat 1 2 }

/-- A concrete speed-change command payload (speed 5). -/
def cmdDataSpeed5 : CommandData :=
  { train := TrainInput.empty, targetType := none, targetId := none,
    slot := none, speed := some (mkRat 5 1) }

theorem getA_cons {α : Type} (p : String × α) (m : List (String × α)) (k : String) :
    getA (p :: m) k = if p.1 = k then some p.2 else getA m k := by
  by_cases h : p.1 = k
  · have hb : (p.1 == k) = true := beq_iff_eq.mpr h
    simp [getA, List.find?, hb, h]
  · have hb : (p.1 == k) = false := beq_eq_false_iff_ne.mpr h
    simp [getA, List.find?, hb, h]

theorem setA_cons {α : Type} (p : String × α) (m : List (String × α)) (k : String) (v : α) :
    setA (p :: m) k v = if p.1 = k then (k, v) :: m else p :: setA m k v := by
  by_cases h : p.1 = k
  · have hb : (p.1 == k) = true := beq_iff_eq.mpr h
    simp [setA, hb, h]
  · have hb : (p.1 == k) = false := beq_eq_false_iff_ne.mpr h
    simp [setA, hb, h]

theorem getA_setA_self {α : Type} (m : List (String × α)) (k : String) (v : α) :
    getA (setA m k v) k = some v := by
  induction m with
  | nil =>
      show getA [(k, v)] k = some v
      rw [getA_cons, if_pos rfl]
  | cons p rest ih =>
      rw [setA_cons]
      by_cases h : p.1 = k
      · rw [if_pos h, getA_cons, if_pos rfl]
      · rw [if_neg h, getA_cons, if_neg h, ih]

theorem getA_setA_ne {α : Type} (m : List (String × α)) (k k' : String) (v : α)
    (h : k' ≠ k) : getA (setA m k v) k' = getA m k' := by
  induction m with
  | nil =>
      show getA [(k, v)] k' = getA [] k'
      rw [getA_cons, if_neg (Ne.symm h)]
  | cons p rest ih =>
      rw [setA_cons]
      by_cases hp : p.1 = k
      · rw [if_pos hp, getA_cons, getA_cons,
          if_neg (show (k, v).1 ≠ k' from Ne.symm h),
          if_neg (show p.1 ≠ k' from by rw [hp]; exact Ne.symm h)]
      · rw [if_neg hp, getA_cons, getA_cons, ih]

theorem mem_setA_self {α : Type} (m : List (String × α)) (k : String) (v : α) :
    (k, v) ∈ setA m k v := by
  induction m with
  | nil => exact List.mem_singleton.mpr rfl
  | cons p rest ih =>
      rw [setA_cons]
      by_cases h : p.1 = k
      · rw [if_pos h]; exact List.mem_cons_self _ _
      · rw [if_neg h]; exact List.mem_cons.mpr (Or.inr ih)

theorem mem_setA_of_ne {α : Type} {m : List (String × α)} {q : String × α}
    (k : String) (v : α) (hq : q ∈ m) (hne : q.1 ≠ k) : q ∈ setA m k v := by
  induction m with
  | nil => cases hq
  | cons p rest ih =>
      rw [setA_cons]
      rcases List.mem_cons.mp hq with h | h
      · by_cases hp : p.1 = k
        · exact absurd (h ▸ hp) hne
        · rw [if_neg hp]; exact List.mem_cons.mpr (Or.inl h)
      · by_cases hp : p.1 = k
        · rw [if_pos hp]; exact List.mem_cons.mpr (Or.inr h)
        · rw [if_neg hp]; exact List.mem_cons.mpr (Or.inr (ih h))

theorem mem_setA_elim {α : Type} {m : List (String × α)} {q : String × α}
    {k : String} {v : α} (h : q ∈ setA m k v) : q = (k, v) ∨ q ∈ m := by
  induction m with
  | nil =>
      rcases List.mem_singleton.mp h with hh
      exact Or.inl hh
  | cons p rest ih =>
      rw [setA_cons] at h
      by_cases hp : p.1 = k
      · rw [if_pos hp] at h
        rcases List.mem_cons.mp h with h | h
        · exact Or.inl h
        · exact Or.inr (List.mem_cons.mpr (Or.inr h))
      · rw [if_neg hp] at h
        rcases List.mem_cons.mp h with h | h
        · exact Or.inr (List.mem_cons.mpr (Or.inl h))
        · rcases ih h with h | h
          · exact Or.inl h
          · exact Or.inr (List.mem_cons.mpr (Or.inr h))

theorem mem_keysA_setA {α : Type} {m : List (String × α)} {x k : String} {v : α}
    (h : x ∈ keysA (setA m k v)) : x = k ∨ x ∈ keysA m := by
  simp only [keysA, List.mem_map] at h
  obtain ⟨q, hq, hx⟩ := h
  rcases mem_setA_elim hq with h | h
  · left; rw [← hx, h]
  · right; exact List.mem_map.mpr ⟨q, h, hx⟩

theorem nodup_keysA_setA {α : Type} {m : List (String × α)} (k : String) (v : α)
    (h : (keysA m).Nodup) : (keysA (setA m k v)).Nodup := by
  induction m with
  | nil => simp [setA, keysA]
  | cons p rest ih =>
      rw [setA_cons]
      by_cases hp : p.1 = k
      · simp only [if_pos hp]
        simpa [keysA, hp] using h
      · simp only [if_neg hp, keysA, List.map_cons, List.nodup_cons] at h ⊢
        refine ⟨fun hmem => ?_, ih h.2⟩
        rcases mem_keysA_setA hmem with hh | hh
        · exact hp hh
        · exact h.1 hh

theorem getA_eq_some_of_mem_nodup {α : Type} {m : List (String × α)}
    {k : String} {v : α} (hnd : (keysA m).Nodup) (h : (k, v) ∈ m) :
    getA m k = some v := by
  induction m with
  | nil => cases h
  | cons p rest ih =>
      simp only [keysA, List.map_cons, List.nodup_cons] at hnd
      rcases List.mem_cons.mp h with h | h
      · rw [← h, getA_cons, if_pos rfl]
      · rw [getA_cons]
        have hk : k ∈ keysA rest := List.mem_map.mpr ⟨(k, v), h, rfl⟩
        have hne : p.1 ≠ k := fun hh => hnd.1 (hh ▸ hk)
        rw [if_neg hne]
        exact ih hnd.2 h

theorem eq_of_mem_setA_key {α : Type} {m : List (String × α)} {q : String × α}
    {k : String} {v : α} (hnd : (keysA m).Nodup) (h : q ∈ setA m k v)
    (hk : q.1 = k) : q = (k, v) := by
  induction m with
  | nil => exact List.mem_singleton.mp h
  | cons p rest ih =>
      rw [setA_cons] at h
      simp only [keysA, List.map_cons, List.nodup_cons] at hnd
      by_cases hp : p.1 = k
      · rw [if_pos hp] at h
        rcases List.mem_cons.mp h with h | h
        · exact h
        · have : q.1 ∈ keysA rest := List.mem_map.mpr ⟨q, h, rfl⟩
          exact absurd (by rw [hp, ← hk]; exact this) hnd.1
      · rw [if_neg hp] at h
        rcases List.mem_cons.mp h with h | h
        · exact absurd (h ▸ hk) hp
        · exact ih hnd.2 h

theorem mem_setA_elim_nodup {α : Type} {m : List (String × α)} {q : String × α}
    {k : String} {v : α} (hnd : (keysA m).Nodup) (h : q ∈ setA m k v) :
    q = (k, v) ∨ (q ∈ m ∧ q.1 ≠ k) := by
  by_cases hk : q.1 = k
  · exact Or.inl (eq_of_mem_setA_key hnd h hk)
  · rcases mem_setA_elim h with hh | hh
    · exact Or.inl hh
    · exact Or.inr ⟨hh, hk⟩

theorem mem_valuesA {α : Type} {m : List (String × α)} {v : α} :
    v ∈ valuesA m ↔ ∃ q ∈ m, q.2 = v := by
  simp only [valuesA, List.mem_map]

theorem emitEvent_trains (et ti ms sv da ei no s) :
    (emitEvent et ti ms sv da ei no s).trains = s.trains := rfl

theorem emitEvent_bays (et ti ms sv da ei no s) :
    (emitEvent et ti ms sv da ei no s).inspectionBays = s.inspectionBays := rfl

theorem emitEvent_ws (et ti ms sv da ei no s) :
    (emitEvent et ti ms sv da ei no s).workshopLines = s.workshopLines := rfl

theorem emitEvent_slots (et ti ms sv da ei no s) :
    (emitEvent et ti ms sv da ei no s).sidingSlots = s.sidingSlots := rfl

theorem emitEvent_log (et ti ms sv da ei no s) :
    (emitEvent et ti ms sv da ei no s).eventLog =
      s.eventLog ++ [{ id := ei, timestamp := no, type := et, trainId := ti,
                       message := ms, data := da, severity := sv }] := rfl

theorem foldl_preserve {α β : Type} (Q : α → Prop) (step : α → β → α)
    (l : List β) (a : α) (h0 : Q a) (hstep : ∀ a x, Q a → Q (step a x)) :
    Q (l.foldl step a) := by
  induction l generalizing a with
  | nil => exact h0
  | cons x xs ih => exact ih _ (hstep a x h0)

theorem trainLocOK_mono {bays bays' : List (String × InspectionBay)}
    {ws ws' : List (String × WorkshopLine)} {slots slots' : List (String × SidingSlot)}
    {t : Train}
    (hb : ∀ q ∈ bays, q.2.occupiedBy = some t.id → q ∈ bays')
    (hw : ∀ q ∈ ws, q.2.occupiedBy = some t.id → q ∈ ws')
    (hs : ∀ q ∈ slots, q.2.occupiedBy = some t.id → q ∈ slots')
    (h : TrainLocOK bays ws slots t) : TrainLocOK bays' ws' slots' t := by
  obtain ⟨h1, h2, h3, h4⟩ := h
  refine ⟨h1, fun hst => ?_, fun hst => ?_, fun hst => ?_⟩
  · obtain ⟨q, hq, hocc, hloc⟩ := h2 hst
    exact ⟨q, hb q hq hocc, hocc, hloc⟩
  · obtain ⟨q, hq, hocc, hloc⟩ := h3 hst
    exact ⟨q, hs q hq hocc, hocc, hloc⟩
  · obtain ⟨q, hq, hocc, hloc⟩ := h4 hst
    exact ⟨q, hw q hq hocc, hocc, hloc⟩

theorem foldl_entries_spec {α β : Type}
    (step : List (String × α) → β → List (String × α))
    (P : String × α → Prop) (l : List β) (m0 : List (String × α))
    (hnd : (keysA m0).Nodup) (h0 : ∀ q ∈ m0, P q)
    (hstep : ∀ m x, (keysA m).Nodup → (∀ q ∈ m, P q) →
      (keysA (step m x)).Nodup ∧ ∀ q ∈ step m x, P q) :
    (keysA (l.foldl step m0)).Nodup ∧ ∀ q ∈ l.foldl step m0, P q := by
  induction l generalizing m0 with
  | nil => exact ⟨hnd, h0⟩
  | cons x xs ih =>
      obtain ⟨h1, h2⟩ := hstep m0 x hnd h0
      exact ih (step m0 x) h1 h2

theorem initBays_spec (defn : YardDefinition) :
    (keysA (initBays defn)).Nodup ∧ ∀ q ∈ initBays defn, q.2.occupiedBy = none := by
  unfold initBays
  refine foldl_entries_spec _
    (fun (q : String × InspectionBay) => q.2.occupiedBy = none) _ []
    (by simp [keysA]) (by intro q hq; cases hq) ?_
  intro m x hm hp
  refine ⟨nodup_keysA_setA _ _ hm, fun q hq => ?_⟩
  rcases mem_setA_elim hq with h | h
  · rw [h]; rfl
  · exact hp q h

theorem initWs_spec (defn : YardDefinition) :
    (keysA (initWs defn)).Nodup ∧
      ∀ q ∈ initWs defn, q.2.occupiedBy = none ∧
        (q.2.specialization = some "wheel-alignment" → q.1 = "WL4") := by
  unfold initWs
  refine foldl_entries_spec _
    (fun (q : String × WorkshopLine) => q.2.occupiedBy = none ∧
      (q.2.specialization = some "wheel-alignment" → q.1 = "WL4")) _ []
    (by simp [keysA]) (by intro q hq; cases hq) ?_
  intro m x hm hp
  refine ⟨nodup_keysA_setA _ _ hm, fun q hq => ?_⟩
  rcases mem_setA_elim hq with h | h
  · subst h
    refine ⟨rfl, fun hsp => ?_⟩
    by_cases hx : x.2 = "WL4"
    · exact hx
    · exfalso
      have hrw : (initWsEntry defn x).specialization =
          (if x.2 = "WL4" then some "wheel-alignment" else none) := rfl
      rw [hrw, if_neg hx] at hsp
      cases hsp
  · exact hp q h

theorem initSlots_spec (defn : YardDefinition) :
    (keysA (initSlots defn)).Nodup ∧ ∀ q ∈ initSlots defn, q.2.occupiedBy = none := by
  unfold initSlots
  refine foldl_entries_spec _
    (fun (q : String × SidingSlot) => q.2.occupiedBy = none) _ []
    (by simp [keysA]) (by intro q hq; cases hq) ?_
  intro m x hm hp
  cases hx : initSlotEntry defn x with
  | none => exact ⟨hm, hp⟩
  | some v =>
      refine ⟨nodup_keysA_setA _ _ hm, fun q hq => ?_⟩
      rcases mem_setA_elim hq with h | h
      · rw [h]
        unfold initSlotEntry at hx
        split at hx
        · split at hx
          · injection hx with hx
            rw [← hx]
          · cases hx
        · cases hx
      · exact hp q h

theorem engineInv_initState (defn : YardDefinition) (now : Int) :
    EngineInv (initState defn now) := by
  refine ⟨by simp [keysA, initState], (initBays_spec defn).1, (initWs_spec defn).1,
    (initSlots_spec defn).1, ?_, ?_, ?_, ?_⟩
  · intro p hp; cases hp
  · intro p hp hsome
    have h := (initBays_spec defn).2 p hp
    rw [h] at hsome
    cases hsome
  · intro p hp
    exact ((initWs_spec defn).2 p hp).2
  · intro p hp; cases hp

theorem getA_mem {α : Type} {m : List (String × α)} {k : String} {v : α}
    (h : getA m k = some v) : (k, v) ∈ m := by
  induction m with
  | nil => cases h
  | cons p rest ih =>
      rw [getA_cons] at h
      by_cases hp : p.1 = k
      · rw [if_pos hp] at h
        injection h with h
        exact List.mem_cons.mpr (Or.inl (Prod.ext hp h).symm)
      · rw [if_neg hp] at h
        exact List.mem_cons.mpr (Or.inr (ih h))

theorem engineInv_of_components {s s' : YardState}
    (h1 : s'.trains = s.trains) (h2 : s'.inspectionBays = s.inspectionBays)
    (h3 : s'.workshopLines = s.workshopLines) (h4 : s'.sidingSlots = s.sidingSlots)
    (h : EngineInv s) : EngineInv s' := by
  obtain ⟨a1, a2, a3, a4, a5, a6, a7, a8⟩ := h
  refine ⟨?_, ?_, ?_, ?_, ?_, ?_, ?_, ?_⟩
  · rw [h1]; exact a1
  · rw [h2]; exact a2
  · rw [h3]; exact a3
  · rw [h4]; exact a4
  · rw [h1]; exact a5
  · rw [h2]; exact a6
  · rw [h3]; exact a7
  · intro p hp
    rw [h2, h3, h4]
    exact a8 p (h1 ▸ hp)

theorem engineInv_enqueue (input : TrainInput) (ext : EnqueueExt) (s : YardState)
    (h : EngineInv s) : EngineInv (enqueueTrain input ext s).2 := by
  obtain ⟨hndT, hndB, hndW, hndS, hIds, hOcc, hSpec, hLoc⟩ := h
  refine ⟨?_, hndB, hndW, hndS, ?_, hOcc, hSpec, ?_⟩
  · exact nodup_keysA_setA _ _ hndT
  · intro p hp
    rcases mem_setA_elim hp with hh | hh
    · rw [hh]; rfl
    · exact hIds p hh
  · intro p hp
    rcases mem_setA_elim hp with hh | hh
    · rw [hh]
      refine ⟨fun _ => rfl, fun hst => ?_, fun hst => ?_, fun hst => ?_⟩
      · exact TrainStatus.noConfusion hst
      · exact TrainStatus.noConfusion hst
      · exact TrainStatus.noConfusion hst
    · exact hLoc p hh

theorem engineInv_assignInspection (tid bid : String) (ext : AssignExt)
    (s : YardState) (h : EngineInv s) :
    EngineInv (assignTrainToInspection tid bid ext s) := by
  obtain ⟨hndT, hndB, hndW, hndS, hIds, hOcc, hSpec, hLoc⟩ := h
  unfold assignTrainToInspection
  split
  next train bay hT hB =>
    split
    next hne => exact ⟨hndT, hndB, hndW, hndS, hIds, hOcc, hSpec, hLoc⟩
    next hne =>
      have hfree : bay.status = BayStatus.free := not_not.mp hne
      have htid : train.id = tid := hIds (tid, train) (getA_mem hT)
      dsimp only [emitEvent]
      refine ⟨?_, ?_, hndW, hndS, ?_, ?_, hSpec, ?_⟩
      · exact nodup_keysA_setA _ _ hndT
      · exact nodup_keysA_setA _ _ hndB
      · intro p hp
        rcases mem_setA_elim hp with hh | hh
        · rw [hh]; exact htid
        · exact hIds p hh
      · intro p hp
        rcases mem_setA_elim hp with hh | hh
        · rw [hh]; intro _; rfl
        · exact hOcc p hh
      · intro p hp
        rcases mem_setA_elim_nodup hndT hp with hh | hh
        · rw [hh]
          refine ⟨fun hst => ?_, fun _ => ?_, fun hst => ?_, fun hst => ?_⟩
          · rcases hst with hst | hst
            · exact TrainStatus.noConfusion hst
            · exact TrainStatus.noConfusion hst
          · refine ⟨(bid,
              { bay with
                status := BayStatus.occupied
                occupiedBy := some tid
                inspectionStartTime := some ext.now }),
              mem_setA_self _ _ _, ?_, rfl⟩
            show some tid = some train.id
            rw [htid]
          · exact TrainStatus.noConfusion hst
          · exact TrainStatus.noConfusion hst
        · refine trainLocOK_mono ?_ (fun q hq _ => hq) (fun q hq _ => hq) (hLoc p hh.1)
          intro q hq hqocc
          by_cases hqb : q.1 = bid
          · exfalso
            have hget : getA s.inspectionBays q.1 = some q.2 :=
              getA_eq_some_of_mem_nodup hndB hq
            rw [hqb, hB] at hget
            have hqbay : bay = q.2 := by injection hget
            have hoc := hOcc q hq (by rw [hqocc]; rfl)
            rw [← hqbay] at hoc
            rw [hoc] at hfree
            exact BayStatus.noConfusion hfree
          · exact mem_setA_of_ne _ _ hq hqb
  next x y hother => exact ⟨hndT, hndB, hndW, hndS, hIds, hOcc, hSpec, hLoc⟩

theorem engineInv_autoAssign (ctx : SimContext) (tid : String) (ext : AssignExt)
    (s : YardState) (h : EngineInv s) :
    EngineInv (autoAssignToInspection ctx tid ext s) := by
  unfold autoAssignToInspection
  split
  next hT => exact h
  next train hT =>
    split
    next hst => exact h
    next hst =>
      dsimp only
      split
      next bayId hFind => exact engineInv_assignInspection tid bayId ext s h
      next hFind =>
        obtain ⟨hndT, hndB, hndW, hndS, hIds, hOcc, hSpec, hLoc⟩ := h
        dsimp only [emitEvent]
        refine ⟨nodup_keysA_setA _ _ hndT, hndB, hndW, hndS, ?_, hOcc, hSpec, ?_⟩
        · intro p hp
          rcases mem_setA_elim hp with hh | hh
          · rw [hh]
            exact hIds (tid, train) (getA_mem hT)
          · exact hIds p hh
        · intro p hp
          rcases mem_setA_elim hp with hh | hh
          · rw [hh]
            have harr : train.status = TrainStatus.arriving := not_not.mp hst
            have hloc1 := (hLoc (tid, train) (getA_mem hT)).1 (Or.inl harr)
            refine ⟨fun _ => hloc1, fun hq => ?_, fun hq => ?_, fun hq => ?_⟩ <;>
              exact TrainStatus.noConfusion hq
          · exact hLoc p hh

theorem engineInv_processQueued (ctx : SimContext) (exts : List AssignExt)
    (s : YardState) (h : EngineInv s) : EngineInv (processQueuedTrains ctx exts s) := by
  unfold processQueuedTrains
  refine foldl_preserve EngineInv _ _ _ h ?_
  intro a x ha
  exact engineInv_autoAssign ctx x.2.id (exts.getD x.1 { now := 0, evId := "" }) a ha

theorem engineInv_assignSiding (tid sid : String) (slotArg : Option Slot)
    (ext : AssignExt) (s : YardState) (h : EngineInv s) :
    EngineInv (assignTrainToSiding tid sid slotArg ext s) := by
  obtain ⟨hndT, hndB, hndW, hndS, hIds, hOcc, hSpec, hLoc⟩ := h
  unfold assignTrainToSiding
  split
  next train sidingSlot hT hS =>
    split
    next hocc => exact ⟨hndT, hndB, hndW, hndS, hIds, hOcc, hSpec, hLoc⟩
    next hocc =>
      have htid : train.id = tid := hIds (tid, train) (getA_mem hT)
      have hnone : sidingSlot.occupiedBy = none := by
        cases hx : sidingSlot.occupiedBy with
        | none => rfl
        | some w => exact absurd (by rw [hx]; rfl) hocc
      dsimp only [emitEvent]
      refine ⟨nodup_keysA_setA _ _ hndT, hndB, hndW, nodup_keysA_setA _ _ hndS,
        ?_, hOcc, hSpec, ?_⟩
      · intro p hp
        rcases mem_setA_elim hp with hh | hh
        · rw [hh]; exact htid
        · exact hIds p hh
      · intro p hp
        rcases mem_setA_elim_nodup hndT hp with hh | hh
        · rw [hh]
          refine ⟨fun hst => ?_, fun hst => ?_, fun _ => ?_, fun hst => ?_⟩
          · rcases hst with hst | hst <;> exact TrainStatus.noConfusion hst
          · exact TrainStatus.noConfusion hst
          · refine ⟨(sid, { sidingSlot with occupiedBy := some tid }),
              mem_setA_self _ _ _, ?_, rfl⟩
            show some tid = some train.id
            rw [htid]
          · exact TrainStatus.noConfusion hst
        · refine trainLocOK_mono (fun q hq _ => hq) (fun q hq _ => hq) ?_ (hLoc p hh.1)
          intro q hq hqocc
          by_cases hqs : q.1 = sid
          · exfalso
            have hget : getA s.sidingSlots q.1 = some q.2 :=
              getA_eq_some_of_mem_nodup hndS hq
            rw [hqs, hS] at hget
            have hqslot : sidingSlot = q.2 := by injection hget
            rw [← hqslot, hnone] at hqocc
            exact Option.noConfusion hqocc
          · exact mem_setA_of_ne _ _ hq hqs
  next x y hother => exact ⟨hndT, hndB, hndW, hndS, hIds, hOcc, hSpec, hLoc⟩

theorem engineInv_assignWorkshop (tid wid : String) (ext : AssignExt)
    (s : YardState) (h : EngineInv s) :
    EngineInv (assignTrainToWorkshop tid wid ext s) := by
  obtain ⟨hndT, hndB, hndW, hndS, hIds, hOcc, hSpec, hLoc⟩ := h
  unfold assignTrainToWorkshop
  split
  next train workshop hT hW =>
    split
    next hocc => exact ⟨hndT, hndB, hndW, hndS, hIds, hOcc, hSpec, hLoc⟩
    next hocc =>
      have htid : train.id = tid := hIds (tid, train) (getA_mem hT)
      have hnone : workshop.occupiedBy = none := by
        cases hx : workshop.occupiedBy with
        | none => rfl
        | some w => exact absurd (by rw [hx]; rfl) hocc
      dsimp only [emitEvent]
      refine ⟨nodup_keysA_setA _ _ hndT, hndB, nodup_keysA_setA _ _ hndW, hndS,
        ?_, hOcc, ?_, ?_⟩
      · intro p hp
        rcases mem_setA_elim hp with hh | hh
        · rw [hh]; exact htid
        · exact hIds p hh
      · intro p hp
        rcases mem_setA_elim hp with hh | hh
        · rw [hh]
          intro hsp
          exact hSpec (wid, workshop) (getA_mem hW) hsp
        · exact hSpec p hh
      · intro p hp
        rcases mem_setA_elim_nodup hndT hp with hh | hh
        · rw [hh]
          refine ⟨fun hst => ?_, fun hst => ?_, fun hst => ?_, fun _ => ?_⟩
          · rcases hst with hst | hst <;> exact TrainStatus.noConfusion hst
          · exact TrainStatus.noConfusion hst
          · exact TrainStatus.noConfusion hst
          · refine ⟨(wid,
              { workshop with
                status := WsStatus.occupied
                occupiedBy := some tid }),
              mem_setA_self _ _ _, ?_, rfl⟩
            show some tid = some train.id
            rw [htid]
        · refine trainLocOK_mono (fun q hq _ => hq) ?_ (fun q hq _ => hq) (hLoc p hh.1)
          intro q hq hqocc
          by_cases hqw : q.1 = wid
          · exfalso
            have hget : getA s.workshopLines q.1 = some q.2 :=
              getA_eq_some_of_mem_nodup hndW hq
            rw [hqw, hW] at hget
            have hqws : workshop = q.2 := by injection hget
            rw [← hqws, hnone] at hqocc
            exact Option.noConfusion hqocc
          · exact mem_setA_of_ne _ _ hq hqw
  next x y hother => exact ⟨hndT, hndB, hndW, hndS, hIds, hOcc, hSpec, hLoc⟩

theorem engineInv_completeWorkshop (ctx : SimContext) (tid wid : String)
    (ext : CompleteWorkshopExt) (s : YardState) (h : EngineInv s) :
    EngineInv (completeWorkshop ctx tid wid ext s) := by
  obtain ⟨hndT, hndB, hndW, hndS, hIds, hOcc, hSpec, hLoc⟩ := h
  unfold completeWorkshop
  split
  next train workshop hT hW =>
    split
    next hne => exact ⟨hndT, hndB, hndW, hndS, hIds, hOcc, hSpec, hLoc⟩
    next hne =>
      have hocc : workshop.occupiedBy = some tid := not_not.mp hne
      have htid : train.id = tid := hIds (tid, train) (getA_mem hT)
      dsimp only [emitEvent]
      refine ⟨nodup_keysA_setA _ _ hndT, hndB, nodup_keysA_setA _ _ hndW, hndS,
        ?_, hOcc, ?_, ?_⟩
      · intro p hp
        rcases mem_setA_elim hp with hh | hh
        · rw [hh]; exact htid
        · exact hIds p hh
      · intro p hp
        rcases mem_setA_elim hp with hh | hh
        · rw [hh]
          intro hsp
          exact hSpec (wid, workshop) (getA_mem hW) hsp
        · exact hSpec p hh
      · intro p hp
        rcases mem_setA_elim_nodup hndT hp with hh | hh
        · rw [hh]
          refine ⟨fun hst => ?_, fun hst => ?_, fun hst => ?_, fun hst => ?_⟩
          · rcases hst with hst | hst <;> exact TrainStatus.noConfusion hst
          all_goals exact TrainStatus.noConfusion hst
        · refine trainLocOK_mono (fun q hq _ => hq) ?_ (fun q hq _ => hq) (hLoc p hh.1)
          intro q hq hqocc
          by_cases hqw : q.1 = wid
          · exfalso
            have hget : getA s.workshopLines q.1 = some q.2 :=
              getA_eq_some_of_mem_nodup hndW hq
            rw [hqw, hW] at hget
            have hqws : workshop = q.2 := by injection hget
            rw [← hqws, hocc] at hqocc
            have : tid = p.2.id := by injection hqocc
            rw [hIds p hh.1] at this
            exact hh.2 this.symm
          · exact mem_setA_of_ne _ _ hq hqw
  next x y hother => exact ⟨hndT, hndB, hndW, hndS, hIds, hOcc, hSpec, hLoc⟩

theorem engineInv_completeInspection (ctx : SimContext) (tid bid : String)
    (ext : CompleteInspectionExt) (s : YardState) (h : EngineInv s) :
    EngineInv (completeInspection ctx tid bid ext s) := by
  obtain ⟨hndT, hndB, hndW, hndS, hIds, hOcc, hSpec, hLoc⟩ := h
  unfold completeInspection
  split
  next train bay hT hB =>
    split
    next hne => exact ⟨hndT, hndB, hndW, hndS, hIds, hOcc, hSpec, hLoc⟩
    next hne =>
      have hocc : bay.occupiedBy = some tid := not_not.mp hne
      have htid : train.id = tid := hIds (tid, train) (getA_mem hT)
      apply engineInv_processQueued
      dsimp only [emitEvent]
      refine ⟨nodup_keysA_setA _ _ hndT, nodup_keysA_setA _ _ hndB, hndW, hndS,
        ?_, ?_, hSpec, ?_⟩
      · intro p hp
        rcases mem_setA_elim hp with hh | hh
        · rw [hh]; exact htid
        · exact hIds p hh
      · intro p hp
        rcases mem_setA_elim hp with hh | hh
        · rw [hh]
          intro hx
          exact Bool.noConfusion hx
        · exact hOcc p hh
      · intro p hp
        rcases mem_setA_elim_nodup hndT hp with hh | hh
        · rw [hh]
          refine ⟨fun hst => ?_, fun hst => ?_, fun hst => ?_, fun hst => ?_⟩
          · rcases hst with hst | hst <;> exact TrainStatus.noConfusion hst
          all_goals exact TrainStatus.noConfusion hst
        · refine trainLocOK_mono ?_ (fun q hq _ => hq) (fun q hq _ => hq) (hLoc p hh.1)
          intro q hq hqocc
          by_cases hqb : q.1 = bid
          · exfalso
            have hget : getA s.inspectionBays q.1 = some q.2 :=
              getA_eq_some_of_mem_nodup hndB hq
            rw [hqb, hB] at hget
            have hqbay : bay = q.2 := by injection hget
            rw [← hqbay, hocc] at hqocc
            have : tid = p.2.id := by injection hqocc
            rw [hIds p hh.1] at this
            exact hh.2 this.symm
          · exact mem_setA_of_ne _ _ hq hqb
  next x y hother => exact ⟨hndT, hndB, hndW, hndS, hIds, hOcc, hSpec, hLoc⟩

theorem engineInv_assignCommand (trainId : String) (d : CommandData)
    (ext : AssignExt) (s : YardState) (h : EngineInv s) :
    EngineInv (assignCommand trainId d ext s) := by
  unfold assignCommand
  split
  · split
    · exact engineInv_assignSiding _ _ _ _ _ h
    · exact h
  · split
    · split
      · exact engineInv_assignWorkshop _ _ _ _ h
      · exact h
    · exact h

theorem engineInv_speedCommand (d : CommandData) (s : YardState)
    (h : EngineInv s) : EngineInv (speedCommand d s) := by
  unfold speedCommand
  split
  · split
    · exact h
    · exact engineInv_of_components rfl rfl rfl rfl h
  · exact h

theorem engineInv_processCommand (ctx : SimContext) (c : SimulatorCommand)
    (ext : CommandExt) (s : YardState) (h : EngineInv s) :
    EngineInv (processCommand ctx c ext s) := by
  unfold processCommand
  split
  · exact engineInv_enqueue _ _ _ h
  · split
    · exact engineInv_assignCommand _ _ _ _ h
    · exact h
  · split
    · exact engineInv_speedCommand _ _ h
    · exact h
  · exact h

theorem engineInv_reachable (ctx : SimContext) (s : YardState)
    (h : Reachable ctx s) : EngineInv s := by
  induction h with
  | init now => exact engineInv_initState ctx.defn now
  | enqueue input ext s _ ih => exact engineInv_enqueue input ext s ih
  | autoAssign tid ext s _ ih => exact engineInv_autoAssign ctx tid ext s ih
  | assignInspection tid bid ext s _ ih => exact engineInv_assignInspection tid bid ext s ih
  | completeInspectionStep tid bid ext s _ ih =>
      exact engineInv_completeInspection ctx tid bid ext s ih
  | assignSiding tid sid slotArg ext s _ ih =>
      exact engineInv_assignSiding tid sid slotArg ext s ih
  | assignWorkshop tid wid ext s _ ih => exact engineInv_assignWorkshop tid wid ext s ih
  | completeWorkshopStep tid wid ext s _ ih =>
      exact engineInv_completeWorkshop ctx tid wid ext s ih
  | command c ext s _ ih => exact engineInv_processCommand ctx c ext s ih

theorem foldl_id {α β : Type} (f : α → β → α) (l : List β) (a : α)
    (h : ∀ x ∈ l, f a x = a) : l.foldl f a = a := by
  induction l with
  | nil => rfl
  | cons x xs ih =>
      rw [List.foldl_cons, h x (List.mem_cons_self x xs)]
      exact ih (fun y hy => h y (List.mem_cons.mpr (Or.inr hy)))

theorem autoAssign_noop_of_not_arriving (ctx : SimContext) (tid : String)
    (ext : AssignExt) (s : YardState) (t : Train)
    (hT : getA s.trains tid = some t) (hst : t.status ≠ TrainStatus.arriving) :
    autoAssignToInspection ctx tid ext s = s := by
  unfold autoAssignToInspection
  simp only [hT]
  rw [if_pos hst]

theorem processQueuedTrains_eq (ctx : SimContext) (exts : List AssignExt)
    (s : YardState) (hndT : (keysA s.trains).Nodup)
    (hIds : ∀ p ∈ s.trains, p.2.id = p.1) :
    processQueuedTrains ctx exts s = s := by
  unfold processQueuedTrains
  refine foldl_id _ _ _ ?_
  intro x hx
  have hx2 : x.2 ∈ (valuesA s.trains).filter
      (fun train => train.status == TrainStatus.queued) := by
    have hmap : x.2 ∈ (((valuesA s.trains).filter
        (fun train => train.status == TrainStatus.queued)).enum).map Prod.snd :=
      List.mem_map.mpr ⟨x, hx, rfl⟩
    rwa [List.enum_map_snd] at hmap
  have hmem := List.mem_filter.mp hx2
  have hq : x.2.status = TrainStatus.queued := beq_iff_eq.mp hmem.2
  obtain ⟨q, hqmem, hqv⟩ := mem_valuesA.mp hmem.1
  have hkey : q.1 = x.2.id := by rw [← hqv, hIds q hqmem]
  have hget : getA s.trains x.2.id = some x.2 := by
    rw [← hkey, ← hqv]
    exact getA_eq_some_of_mem_nodup hndT (by rw [← Prod.mk.eta (p := q)] at hqmem; exact hqmem)
  refine autoAssign_noop_of_not_arriving ctx x.2.id _ s x.2 hget ?_
  rw [hq]
  intro hc
  exact TrainStatus.noConfusion hc

theorem completeInspection_noop (ctx : SimContext) (tid bid : String)
    (ext : CompleteInspectionExt) (s : YardState)
    (hfail : getA s.trains tid = none ∨ getA s.inspectionBays bid = none ∨
      ∃ bay, getA s.inspectionBays bid = some bay ∧ bay.occupiedBy ≠ some tid) :
    completeInspection ctx tid bid ext s = s := by
  unfold completeInspection
  split
  next train bay hT hB =>
    split
    next hne => rfl
    next hne =>
      exfalso
      rcases hfail with hc | hc | ⟨bay0, hb0, hown⟩
      · rw [hT] at hc; cases hc
      · rw [hB] at hc; cases hc
      · rw [hB] at hb0
        have : bay = bay0 := by injection hb0
        rw [← this] at hown
        exact hown (not_not.mp hne)
  next x y hother => rfl

theorem completeWorkshop_noop (ctx : SimContext) (tid wid : String)
    (ext : CompleteWorkshopExt) (s : YardState)
    (hfail : getA s.trains tid = none ∨ getA s.workshopLines wid = none ∨
      ∃ w, getA s.workshopLines wid = some w ∧ w.occupiedBy ≠ some tid) :
    completeWorkshop ctx tid wid ext s = s := by
  unfold completeWorkshop
  split
  next train workshop hT hW =>
    split
    next hne => rfl
    next hne =>
      exfalso
      rcases hfail with hc | hc | ⟨w0, hw0, hown⟩
      · rw [hT] at hc; cases hc
      · rw [hW] at hc; cases hc
      · rw [hW] at hw0
        have : workshop = w0 := by injection hw0
        rw [← this] at hown
        exact hown (not_not.mp hne)
  next x y hother => rfl

theorem completeInspection_bay (ctx : SimContext) (tid bid : String)
    (ext : CompleteInspectionExt) (s : YardState) (train : Train) (bay : InspectionBay)
    (hndT : (keysA s.trains).Nodup) (hIds : ∀ p ∈ s.trains, p.2.id = p.1)
    (hT : getA s.trains tid = some train) (hB : getA s.inspectionBays bid = some bay)
    (hocc : bay.occupiedBy = some tid) :
    getA (completeInspection ctx tid bid ext s).inspectionBays bid =
      some { bay with
             status := BayStatus.free
             occupiedBy := none
             inspectionStartTime := none } := by
  unfold completeInspection
  simp only [hT, hB]
  rw [if_neg (not_not_intro hocc)]
  dsimp only [emitEvent]
  rw [processQueuedTrains_eq]
  · exact getA_setA_self _ _ _
  · exact nodup_keysA_setA _ _ hndT
  · intro p hp
    rcases mem_setA_elim hp with hh | hh
    · rw [hh]; exact hIds (tid, train) (getA_mem hT)
    · exact hIds p hh

theorem completeInspection_log (ctx : SimContext) (tid bid : String)
    (ext : CompleteInspectionExt) (s : YardState) (train : Train) (bay : InspectionBay)
    (hndT : (keysA s.trains).Nodup) (hIds : ∀ p ∈ s.trains, p.2.id = p.1)
    (hT : getA s.trains tid = some train) (hB : getA s.inspectionBays bid = some bay)
    (hocc : bay.occupiedBy = some tid) :
    (completeInspection ctx tid bid ext s).eventLog.length = s.eventLog.length + 2 := by
  unfold completeInspection
  simp only [hT, hB]
  rw [if_neg (not_not_intro hocc)]
  dsimp only [emitEvent]
  rw [processQueuedTrains_eq]
  · simp
  · exact nodup_keysA_setA _ _ hndT
  · intro p hp
    rcases mem_setA_elim hp with hh | hh
    · rw [hh]; exact hIds (tid, train) (getA_mem hT)
    · exact hIds p hh

theorem completeWorkshop_ws (ctx : SimContext) (tid wid : String)
    (ext : CompleteWorkshopExt) (s : YardState) (train : Train) (workshop : WorkshopLine)
    (hT : getA s.trains tid = some train) (hW : getA s.workshopLines wid = some workshop)
    (hocc : workshop.occupiedBy = some tid) :
    getA (completeWorkshop ctx tid wid ext s).workshopLines wid =
      some { workshop with status := WsStatus.free, occupiedBy := none } := by
  unfold completeWorkshop
  simp only [hT, hW]
  rw [if_neg (not_not_intro hocc)]
  dsimp only [emitEvent]
  exact getA_setA_self _ _ _

theorem completeWorkshop_log (ctx : SimContext) (tid wid : String)
    (ext : CompleteWorkshopExt) (s : YardState) (train : Train) (workshop : WorkshopLine)
    (hT : getA s.trains tid = some train) (hW : getA s.workshopLines wid = some workshop)
    (hocc : workshop.occupiedBy = some tid) :
    (completeWorkshop ctx tid wid ext s).eventLog.length = s.eventLog.length + 2 := by
  unfold completeWorkshop
  simp only [hT, hW]
  rw [if_neg (not_not_intro hocc)]
  dsimp only [emitEvent]
  simp

theorem enqueueTrain_log (input : TrainInput) (ext : EnqueueExt) (s : YardState) :
    (enqueueTrain input ext s).2.eventLog.length = s.eventLog.length + 1 := by
  dsimp only [enqueueTrain, emitEvent]
  simp

theorem assignInspection_log (tid bid : String) (ext : AssignExt) (s : YardState)
    (train : Train) (bay : InspectionBay)
    (hT : getA s.trains tid = some train) (hB : getA s.inspectionBays bid = some bay)
    (hfree : bay.status = BayStatus.free) :
    (assignTrainToInspection tid bid ext s).eventLog.length = s.eventLog.length + 1 := by
  unfold assignTrainToInspection
  simp only [hT, hB]
  rw [if_neg (not_not_intro hfree)]
  dsimp only [emitEvent]
  simp

theorem assignSiding_log (tid sid : String) (slotArg : Option Slot) (ext : AssignExt)
    (s : YardState) (train : Train) (sl : SidingSlot)
    (hT : getA s.trains tid = some train) (hS : getA s.sidingSlots sid = some sl)
    (hnone : sl.occupiedBy = none) :
    (assignTrainToSiding tid sid slotArg ext s).eventLog.length = s.eventLog.length + 1 := by
  unfold assignTrainToSiding
  simp only [hT, hS]
  rw [if_neg (show ¬(sl.occupiedBy.isSome = true) from by
    intro hx; rw [hnone] at hx; exact Bool.noConfusion hx)]
  dsimp only [emitEvent]
  simp

theorem assignWorkshop_log (tid wid : String) (ext : AssignExt)
    (s : YardState) (train : Train) (w : WorkshopLine)
    (hT : getA s.trains tid = some train) (hW : getA s.workshopLines wid = some w)
    (hnone : w.occupiedBy = none) :
    (assignTrainToWorkshop tid wid ext s).eventLog.length = s.eventLog.length + 1 := by
  unfold assignTrainToWorkshop
  simp only [hT, hW]
  rw [if_neg (show ¬(w.occupiedBy.isSome = true) from by
    intro hx; rw [hnone] at hx; exact Bool.noConfusion hx)]
  dsimp only [emitEvent]
  simp

theorem length_filter_map {α β : Type} (f : α → β) (p : β → Bool) (l : List α) :
    ((l.map f).filter p).length = (l.filter (fun a => p (f a))).length := by
  induction l with
  | nil => rfl
  | cons x xs ih =>
      simp only [List.map_cons, List.filter_cons]
      cases p (f x) <;> simp [ih]

theorem length_filter_le_of_imp {α : Type} (p q : α → Bool) (l : List α)
    (h : ∀ a ∈ l, p a = true → q a = true) :
    (l.filter p).length ≤ (l.filter q).length := by
  induction l with
  | nil => exact le_refl 0
  | cons x xs ih =>
      have ih' := ih (fun a ha => h a (List.mem_cons.mpr (Or.inr ha)))
      rw [List.filter_cons, List.filter_cons]
      by_cases hp : p x = true
      · rw [if_pos hp, if_pos (h x (List.mem_cons_self x xs) hp)]
        simpa using ih'
      · rw [if_neg hp]
        by_cases hq : q x = true
        · rw [if_pos hq]
          simp only [List.length_cons]
          omega
        · rw [if_neg hq]
          exact ih'

theorem length_le_one_of_nodup_const {α : Type} (l : List α) (c : α)
    (hnd : l.Nodup) (h : ∀ a ∈ l, a = c) : l.length ≤ 1 := by
  cases l with
  | nil => simp
  | cons x xs =>
      cases xs with
      | nil => simp
      | cons y ys =>
          exfalso
          rw [List.nodup_cons] at hnd
          have hx : x = c := h x (List.mem_cons_self _ _)
          have hy : y = c := h y (List.mem_cons.mpr (Or.inr (List.mem_cons_self _ _)))
          exact hnd.1 (by rw [hx, ← hy]; exact List.mem_cons_self _ _)

/-- C1: for every state, train id and target, `assignTrainToSiding` and
`assignTrainToWorkshop` leave the entire yard state unchanged and emit
no event whenever the train or the target resource is missing or the
target already has an occupant; when the train exists and the target is
free, the target's `occupiedBy` becomes exactly that train id, so no
assignment ever overwrites an existing occupant. -/
theorem c1_assignment_guard :
    ∀ (tid sid wid : String) (slotArg : Option Slot) (ext : AssignExt) (s : YardState),
    ((getA s.trains tid = none ∨ getA s.sidingSlots sid = none ∨
        (getA s.sidingSlots sid).any (fun sl => sl.occupiedBy.isSome) = true) →
      assignTrainToSiding tid sid slotArg ext s = s) ∧
    ((getA s.trains tid = none ∨ getA s.workshopLines wid = none ∨
        (getA s.workshopLines wid).any (fun w => w.occupiedBy.isSome) = true) →
      assignTrainToWorkshop tid wid ext s = s) ∧
    ((getA s.trains tid).isSome = true →
      (getA s.sidingSlots sid).any (fun sl => sl.occupiedBy.isNone) = true →
      ∃ sl', getA (assignTrainToSiding tid sid slotArg ext s).sidingSlots sid = some sl' ∧
        sl'.occupiedBy = some tid) ∧
    ((getA s.trains tid).isSome = true →
      (getA s.workshopLines wid).any (fun w => w.occupiedBy.isNone) = true →
      ∃ w', getA (assignTrainToWorkshop tid wid ext s).workshopLines wid = some w' ∧
        w'.occupiedBy = some tid) := by
  intro tid sid wid slotArg ext s
  refine ⟨?_, ?_, ?_, ?_⟩
  · intro hc
    unfold assignTrainToSiding
    split
    next train sl hT hS =>
      split
      next hocc => rfl
      next hocc =>
        exfalso
        rcases hc with hc | hc | hc
        · rw [hT] at hc; cases hc
        · rw [hS] at hc; cases hc
        · rw [hS] at hc; exact hocc hc
    next x y hother => rfl
  · intro hc
    unfold assignTrainToWorkshop
    split
    next train w hT hW =>
      split
      next hocc => rfl
      next hocc =>
        exfalso
        rcases hc with hc | hc | hc
        · rw [hT] at hc; cases hc
        · rw [hW] at hc; cases hc
        · rw [hW] at hc; exact hocc hc
    next x y hother => rfl
  · intro h1 h2
    cases hT : getA s.trains tid with
    | none => rw [hT] at h1; exact Bool.noConfusion h1
    | some train =>
      cases hS : getA s.sidingSlots sid with
      | none => rw [hS] at h2; exact Bool.noConfusion h2
      | some sl =>
        rw [hS] at h2
        have hnone : sl.occupiedBy = none := Option.isNone_iff_eq_none.mp h2
        unfold assignTrainToSiding
        simp only [hT, hS]
        rw [if_neg (show ¬(sl.occupiedBy.isSome = true) from by
          intro hx; rw [hnone] at hx; exact Bool.noConfusion hx)]
        dsimp only [emitEvent]
        exact ⟨_, getA_setA_self _ _ _, rfl⟩
  · intro h1 h2
    cases hT : getA s.trains tid with
    | none => rw [hT] at h1; exact Bool.noConfusion h1
    | some train =>
      cases hW : getA s.workshopLines wid with
      | none => rw [hW] at h2; exact Bool.noConfusion h2
      | some w =>
        rw [hW] at h2
        have hnone : w.occupiedBy = none := Option.isNone_iff_eq_none.mp h2
        unfold assignTrainToWorkshop
        simp only [hT, hW]
        rw [if_neg (show ¬(w.occupiedBy.isSome = true) from by
          intro hx; rw [hnone] at hx; exact Bool.noConfusion hx)]
        dsimp only [emitEvent]
        exact ⟨_, getA_setA_self _ _ _, rfl⟩

/-- Witness for C1: on the concrete state `sArr`, assigning an unknown
train id changes nothing, and assigning the existing train to the free
slot S2a records exactly that train as occupant. -/
theorem c1_witness :
    assignTrainToSiding "ghost" "S2a" none { now := 5, evId := "w1" } sArr = sArr ∧
    ((getA (assignTrainToSiding tid1 "S2a" none { now := 5, evId := "w1" } sArr).sidingSlots
        "S2a").map (fun sl => sl.occupiedBy)) = some (some tid1) := by
  refine ⟨(c1_assignment_guard "ghost" "S2a" "WL1" none { now := 5, evId := "w1" } sArr).1
    (Or.inl (by decide)), ?_⟩
  obtain ⟨sl', hget, hocc⟩ :=
    (c1_assignment_guard tid1 "S2a" "WL1" none { now := 5, evId := "w1" } sArr).2.2.1
      (by decide) (by decide)
  rw [hget]
  simp [hocc]

/-- C3: a completion handler invoked when its resource's `occupiedBy` no
longer equals the train id changes no state and emits no event; hence
invoking `completeInspection` or `completeWorkshop` twice for the same
train/resource pair has effect only on the first call. -/
theorem c3_completion_guard :
    ∀ (ctx : SimContext) (tid bid wid : String) (e1 e2 : CompleteInspectionExt)
      (f1 f2 : CompleteWorkshopExt) (s : YardState),
    ((getA s.inspectionBays bid).any (fun bay => bay.occupiedBy != some tid) = true →
      completeInspection ctx tid bid e1 s = s) ∧
    ((getA s.workshopLines wid).any (fun w => w.occupiedBy != some tid) = true →
      completeWorkshop ctx tid wid f1 s = s) ∧
    (EngineInv s →
      completeInspection ctx tid bid e2 (completeInspection ctx tid bid e1 s) =
        completeInspection ctx tid bid e1 s) ∧
    (completeWorkshop ctx tid wid f2 (completeWorkshop ctx tid wid f1 s) =
      completeWorkshop ctx tid wid f1 s) := by
  intro ctx tid bid wid e1 e2 f1 f2 s
  refine ⟨?_, ?_, ?_, ?_⟩
  · intro h
    cases hB : getA s.inspectionBays bid with
    | none => rw [hB] at h; exact Bool.noConfusion h
    | some bay =>
        rw [hB] at h
        exact completeInspection_noop ctx tid bid e1 s
          (Or.inr (Or.inr ⟨bay, hB, bne_iff_ne.mp h⟩))
  · intro h
    cases hW : getA s.workshopLines wid with
    | none => rw [hW] at h; exact Bool.noConfusion h
    | some w =>
        rw [hW] at h
        exact completeWorkshop_noop ctx tid wid f1 s
          (Or.inr (Or.inr ⟨w, hW, bne_iff_ne.mp h⟩))
  · intro hinv
    obtain ⟨hndT, _, _, _, hIds, _, _, _⟩ := hinv
    cases hT : getA s.trains tid with
    | none =>
        rw [completeInspection_noop ctx tid bid e1 s (Or.inl hT)]
        exact completeInspection_noop ctx tid bid e2 s (Or.inl hT)
    | some train =>
      cases hB : getA s.inspectionBays bid with
      | none =>
          rw [completeInspection_noop ctx tid bid e1 s (Or.inr (Or.inl hB))]
          exact completeInspection_noop ctx tid bid e2 s (Or.inr (Or.inl hB))
      | some bay =>
        by_cases hocc : bay.occupiedBy = some tid
        · have hbay := completeInspection_bay ctx tid bid e1 s train bay hndT hIds hT hB hocc
          exact completeInspection_noop ctx tid bid e2 _
            (Or.inr (Or.inr ⟨_, hbay, by simp⟩))
        · have hno := completeInspection_noop ctx tid bid e1 s
            (Or.inr (Or.inr ⟨bay, hB, hocc⟩))
          rw [hno]
          exact completeInspection_noop ctx tid bid e2 s
            (Or.inr (Or.inr ⟨bay, hB, hocc⟩))
  · cases hT : getA s.trains tid with
    | none =>
        rw [completeWorkshop_noop ctx tid wid f1 s (Or.inl hT)]
        exact completeWorkshop_noop ctx tid wid f2 s (Or.inl hT)
    | some train =>
      cases hW : getA s.workshopLines wid with
      | none =>
          rw [completeWorkshop_noop ctx tid wid f1 s (Or.inr (Or.inl hW))]
          exact completeWorkshop_noop ctx tid wid f2 s (Or.inr (Or.inl hW))
      | some w =>
        by_cases hocc : w.occupiedBy = some tid
        · have hws := completeWorkshop_ws ctx tid wid f1 s train w hT hW hocc
          exact completeWorkshop_noop ctx tid wid f2 _
            (Or.inr (Or.inr ⟨_, hws, by simp⟩))
        · have hno := completeWorkshop_noop ctx tid wid f1 s
            (Or.inr (Or.inr ⟨w, hW, hocc⟩))
          rw [hno]
          exact completeWorkshop_noop ctx tid wid f2 s
            (Or.inr (Or.inr ⟨w, hW, hocc⟩))

/-- Witness for C3: after the concrete inspection completion (`sMoving`)
and workshop completion (`sWsDone`), invoking the same completion again
changes nothing. -/
theorem c3_witness :
    completeInspection ctx0 tid1 "IL1" extCI1 sMoving = sMoving ∧
    completeWorkshop ctx0 tid1 "WL1"
      { now := 9, evUpdated := "x1", evPreview := "x2" } sWsDone = sWsDone := by
  refine ⟨(c3_completion_guard ctx0 tid1 "IL1" "WL1" extCI1 extCI1
      { now := 9, evUpdated := "x1", evPreview := "x2" }
      { now := 9, evUpdated := "x1", evPreview := "x2" } sMoving).1 (by decide),
    (c3_completion_guard ctx0 tid1 "IL1" "WL1" extCI1 extCI1
      { now := 9, evUpdated := "x1", evPreview := "x2" }
      { now := 9, evUpdated := "x1", evPreview := "x2" } sWsDone).2.1 (by decide)⟩

/-- Counterexample for C2 as stated: the state `sMoving` is reachable
(create a train, auto-assign it to bay IL1, complete the inspection),
yet its train occupies no resource while sitting at the bay node IL1
rather than the entry node - `locationNodeId` does not equal the entry
node or the node of a resource it holds. -/
theorem c2_counterexample : Reachable ctx0 sMoving ∧ ¬ OrigConservation sMoving := by
  constructor
  · exact Reachable.completeInspectionStep tid1 "IL1" extCI1 sInsp
      (Reachable.autoAssign tid1 { now := 0, evId := "ev2" } sArr
        (Reachable.enqueue input1
          { now := 0, idSuffix := "a", evId := "ev1", randF := mkRat 1 2, randM := mkRat 1 2 }
          (initState defn0 0)
          (Reachable.init 0)))
  · decide

/-- C2 amended: in every reachable state, every train whose status is a
holding status (`arriving`, `queued`) sits at the entry node, and every
train in `inspection`, `parked` or `workshop` status sits at the node of
a resource of the matching kind whose `occupiedBy` is the train's id.
Trains in the transient `moving` status (after a completion freed their
resource but before the delayed re-assignment fires) are exempt, and a
train may transiently be recorded as occupant of more than one resource
when external reassignments interleave with stale timers. -/
theorem c2_location_conservation (ctx : SimContext) (s : YardState)
    (h : Reachable ctx s) : LocConservation s :=
  (engineInv_reachable ctx s h).2.2.2.2.2.2.2

/-- Witness for C2: the amended conservation property holds at the
concrete reachable state `sInsp`. -/
theorem c2_witness : LocConservation sInsp :=
  c2_location_conservation ctx0 sInsp
    (Reachable.autoAssign tid1 { now := 0, evId := "ev2" } sArr
      (Reachable.enqueue input1
        { now := 0, idSuffix := "a", evId := "ev1", randF := mkRat 1 2, randM := mkRat 1 2 }
        (initState defn0 0)
        (Reachable.init 0)))

/-- C4: the code never re-assigns queued trains.  In the reachable state
`sAfter` - obtained by queueing a second train behind an occupied bay
and then completing the first train's inspection - the bay IL1 is free
and the second train is still `queued`; `processQueuedTrains` (invoked
by `completeInspection`) is an identity because
`autoAssignToInspection` returns early for any train whose status is
not `arriving`. -/
theorem c4_queued_never_reassigned :
    Reachable ctx0 sAfter ∧
    (getA sAfter.trains tid2).map (fun t => t.status) = some TrainStatus.queued ∧
    (getA sAfter.inspectionBays "IL1").map (fun b => b.status) = some BayStatus.free ∧
    processQueuedTrains ctx0 [{ now := 9, evId := "evq" }] sAfter = sAfter := by
  refine ⟨?_, by decide, by decide, rfl⟩
  exact Reachable.completeInspectionStep tid1 "IL1"
    { now := 2, rand := mkRat 0 1, evResult := "ev7", evPreview := "ev8",
      queueExts := [{ now := 2, evId := "ev9" }] } sQueued
    (Reachable.autoAssign tid2 { now := 1, evId := "ev6" } sTwo
      (Reachable.enqueue input2
        { now := 1, idSuffix := "b", evId := "ev5", randF := mkRat 1 2, randM := mkRat 1 2 }
        sInsp
        (Reachable.autoAssign tid1 { now := 0, evId := "ev2" } sArr
          (Reachable.enqueue input1
            { now := 0, idSuffix := "a", evId := "ev1", randF := mkRat 1 2, randM := mkRat 1 2 }
            (initState defn0 0)
            (Reachable.init 0)))))

theorem wheelAlignment_elig (t : Train)
    (h : t.failures.contains "wheel-alignment" = true) :
    ∀ w : WorkshopLine,
      (!w.occupiedBy.isSome &&
        !(t.failures.contains "wheel-alignment" &&
          !(w.specialization == some "wheel-alignment"))) = true →
      w.specialization = some "wheel-alignment" := by
  intro w hw
  rw [Bool.and_eq_true] at hw
  obtain ⟨h1, h2⟩ := hw
  rw [h, Bool.true_and, Bool.not_not] at h2
  exact beq_iff_eq.mp h2

theorem specFilter_le_one (m : List (String × WorkshopLine))
    (hnd : (keysA m).Nodup)
    (hspec : ∀ p ∈ m, p.2.specialization = some "wheel-alignment" → p.1 = "WL4") :
    (m.filter (fun q => q.2.specialization == some "wheel-alignment")).length ≤ 1 := by
  have hkeys : ∀ q ∈ m.filter
      (fun q => q.2.specialization == some "wheel-alignment"), q.1 = "WL4" := by
    intro q hq
    obtain ⟨hmem, hpred⟩ := List.mem_filter.mp hq
    exact hspec q hmem (beq_iff_eq.mp hpred)
  have hsub : (m.filter
      (fun q => q.2.specialization == some "wheel-alignment")).Sublist m :=
    List.filter_sublist _
  have hndk : ((m.filter
      (fun q => q.2.specialization == some "wheel-alignment")).map
        (fun p => p.1)).Nodup :=
    List.Nodup.sublist (List.Sublist.map _ hsub) hnd
  have hlen := length_le_one_of_nodup_const _ "WL4" hndk (by
    intro a ha
    obtain ⟨q, hq, hqa⟩ := List.mem_map.mp ha
    rw [← hqa]
    exact hkeys q hq)
  rwa [List.length_map] at hlen

theorem workshopRecs_len_le (ctx : SimContext) (s : YardState) (tid : String)
    (t : Train) (hT : getA s.trains tid = some t)
    (h : t.failures.contains "wheel-alignment" = true)
    (hlen : (s.workshopLines.filter
      (fun q => q.2.specialization == some "wheel-alignment")).length ≤ 1) :
    (generateWorkshopRecommendations ctx tid s).length ≤ 1 := by
  unfold generateWorkshopRecommendations
  rw [hT]
  rw [List.length_insertionSort, List.length_map]
  have heq : ((valuesA s.workshopLines).filter (fun w =>
      !w.occupiedBy.isSome &&
      !(t.failures.contains "wheel-alignment" &&
        !(w.specialization == some "wheel-alignment")))).length =
    (s.workshopLines.filter (fun q =>
      !q.2.occupiedBy.isSome &&
      !(t.failures.contains "wheel-alignment" &&
        !(q.2.specialization == some "wheel-alignment")))).length :=
    length_filter_map (fun p => p.2) _ s.workshopLines
  rw [heq]
  refine le_trans (length_filter_le_of_imp _ _ s.workshopLines ?_) hlen
  intro q hq hpq
  exact beq_iff_eq.mpr (wheelAlignment_elig t h q.2 hpq)

/-- C5: for a train whose failures include `wheel-alignment`,
`generateWorkshopRecommendations` returns only workshop lines
specialized in wheel alignment, regardless of score; the initial
registry gives that specialization to at most one line (only node WL4);
and in every reachable state the recommendation list for such a train
has length at most 1. -/
theorem c5_wheel_alignment_filter :
    (∀ (ctx : SimContext) (s : YardState) (tid : String),
      (getA s.trains tid).any (fun t => t.failures.contains "wheel-alignment") = true →
      ∀ r ∈ generateWorkshopRecommendations ctx tid s,
        ∃ q ∈ s.workshopLines, q.2.id = r.targetId ∧
          q.2.specialization = some "wheel-alignment") ∧
    (∀ (defn : YardDefinition),
      ((initWs defn).filter
        (fun q => q.2.specialization == some "wheel-alignment")).length ≤ 1) ∧
    (∀ (ctx : SimContext) (s : YardState) (tid : String), Reachable ctx s →
      (getA s.trains tid).any (fun t => t.failures.contains "wheel-alignment") = true →
      (generateWorkshopRecommendations ctx tid s).length ≤ 1) := by
  refine ⟨?_, ?_, ?_⟩
  · intro ctx s tid h
    cases hT : getA s.trains tid with
    | none => rw [hT] at h; exact Bool.noConfusion h
    | some t =>
      rw [hT] at h
      have h : t.failures.contains "wheel-alignment" = true := h
      intro r hr
      unfold generateWorkshopRecommendations at hr
      rw [hT] at hr
      have hr2 := (List.mem_insertionSort _).mp hr
      obtain ⟨w, hwmem, hmk⟩ := List.mem_map.mp hr2
      obtain ⟨hv, hel⟩ := List.mem_filter.mp hwmem
      obtain ⟨q, hq, hqw⟩ := mem_valuesA.mp hv
      refine ⟨q, hq, ?_, ?_⟩
      · rw [hqw, ← hmk]
      · rw [hqw]; exact wheelAlignment_elig t h w hel
  · intro defn
    obtain ⟨hnd, hall⟩ := initWs_spec defn
    exact specFilter_le_one _ hnd (fun q hq => (hall q hq).2)
  · intro ctx s tid hreach h
    obtain ⟨_, _, hndW, _, _, _, hSpec, _⟩ := engineInv_reachable ctx s hreach
    cases hT : getA s.trains tid with
    | none => rw [hT] at h; exact Bool.noConfusion h
    | some t =>
      rw [hT] at h
      exact workshopRecs_len_le ctx s tid t hT h (specFilter_le_one _ hndW hSpec)

/-- Witness for C5: for the concrete wheel-alignment train of the
reachable state `sWA`, the recommendation list has at most one entry. -/
theorem c5_witness :
    (generateWorkshopRecommendations ctx0 tidWA sWA).length ≤ 1 :=
  c5_wheel_alignment_filter.2.2 ctx0 sWA tidWA
    (Reachable.enqueue inputWA
      { now := 4, idSuffix := "c", evId := "ev13", randF := mkRat 1 2, randM := mkRat 1 2 }
      (initState defn0 0) (Reachable.init 0))
    (by decide)

theorem calculateSidingScore_eq (t : Train) (slot : SidingSlot) :
    calculateSidingScore t slot =
      max 0 (100
        + (if t.departSoon && (slot.slot == Slot.a) then 20 else 0)
        - (if t.departSoon && (slot.slot == Slot.b) then 10 else 0)
        - jsOrInt slot.reverseCost 1 * 5
        + (if slot.blockingRisk == some Risk.low then 10 else 0)
        - (if slot.blockingRisk == some Risk.high then 10 else 0)
        + (if t.priority then (13 - (parseSidingNum slot.sidingId : Int)) * 2 else 0)) := by
  unfold calculateSidingScore
  cases hc1 : (t.departSoon && (slot.slot == Slot.a)) <;>
    cases hc2 : (t.departSoon && (slot.slot == Slot.b)) <;>
    cases hc3 : (slot.blockingRisk == some Risk.low) <;>
    cases hc4 : (slot.blockingRisk == some Risk.high) <;>
    cases hc5 : t.priority <;>
    simp

/-- Counterexample for C6 as stated: for a plain train and an unoccupied
slot whose `reverseCost` is the (falsy) number 0, the engine's score is
not the specification's formula value - the code substitutes 1 for a
zero or missing `reverseCost` (`slot.reverseCost || 1`), giving 95
instead of the specified 100. -/
theorem c6_counterexample :
    slotRC0.reverseCost = some 0 ∧ slotRC0.occupiedBy = none ∧
    calculateSidingScore trainPlain slotRC0 ≠ sidingScoreSpec trainPlain slotRC0 := by
  refine ⟨rfl, rfl, by decide⟩

/-- C6 amended: the computed siding score equals 100, plus 20 if the
train is departSoon and the slot is a, minus 10 if departSoon and slot
b, minus r times 5 where r is the slot's reverseCost if present and
non-zero and 1 otherwise, plus 10 for low blocking risk, minus 10 for
high, plus (13 - sidingNumber) times 2 for a priority train, floored at
0. -/
theorem c6_siding_score_formula (t : Train) (slot : SidingSlot) :
    calculateSidingScore t slot =
      max 0 (100
        + (if t.departSoon && (slot.slot == Slot.a) then 20 else 0)
        - (if t.departSoon && (slot.slot == Slot.b) then 10 else 0)
        - jsOrInt slot.reverseCost 1 * 5
        + (if slot.blockingRisk == some Risk.low then 10 else 0)
        - (if slot.blockingRisk == some Risk.high then 10 else 0)
        + (if t.priority then (13 - (parseSidingNum slot.sidingId : Int)) * 2 else 0)) :=
  calculateSidingScore_eq t slot

/-- C7: increasing `reverseCost` on an otherwise identical candidate
siding slot never increases the computed score. -/
theorem c7_reverse_cost_monotone (t : Train) (slot : SidingSlot) (r1 r2 : Int)
    (h : r1 < r2) :
    calculateSidingScore t { slot with reverseCost := some r2 } ≤
      calculateSidingScore t { slot with reverseCost := some r1 } := by
  rw [calculateSidingScore_eq, calculateSidingScore_eq]
  have hm : jsOrInt (some r1) 1 ≤ jsOrInt (some r2) 1 := by
    unfold jsOrInt
    by_cases h1 : r1 = 0 <;> by_cases h2 : r2 = 0 <;> simp [h1, h2] <;> omega
  dsimp only
  omega

/-- Witness for C7 at a concrete train and slot pair. -/
theorem c7_witness :
    (1 : Int) < 2 ∧
    calculateSidingScore trainPlain { slotRC1 with reverseCost := some 2 } ≤
      calculateSidingScore trainPlain { slotRC1 with reverseCost := some 1 } :=
  ⟨by decide, c7_reverse_cost_monotone trainPlain slotRC1 1 2 (by decide)⟩

/-- Counterexample for C8 as stated: for siding S3 both slots get risk
`high`, so slot a's risk is not strictly lower than slot b's. -/
theorem c8_counterexample :
    calculateBlockingRisk "S3" Slot.a = calculateBlockingRisk "S3" Slot.b ∧
    ¬ riskLevel (calculateBlockingRisk "S3" Slot.a) <
        riskLevel (calculateBlockingRisk "S3" Slot.b) := by
  exact ⟨by decide, by decide⟩

/-- C8 amended: slot a's blocking risk is less than or equal to slot b's
for the same siding (strictly lower exactly when the siding number
exceeds 4), and for a fixed slot letter the risk never increases as the
siding number increases. -/
theorem c8_blocking_risk_order :
    (∀ sidingId : String,
      riskLevel (calculateBlockingRisk sidingId Slot.a) ≤
        riskLevel (calculateBlockingRisk sidingId Slot.b)) ∧
    (∀ sidingId : String, parseSidingNum sidingId > 4 →
      riskLevel (calculateBlockingRisk sidingId Slot.a) <
        riskLevel (calculateBlockingRisk sidingId Slot.b)) ∧
    (∀ (slot : Slot) (n1 n2 : Nat), n1 ≤ n2 →
      riskLevel (calculateBlockingRiskNum n2 slot) ≤
        riskLevel (calculateBlockingRiskNum n1 slot)) := by
  refine ⟨fun sid => ?_, fun sid h4 => ?_, fun slot n1 n2 h => ?_⟩
  · unfold calculateBlockingRisk calculateBlockingRiskNum
    by_cases h8 : parseSidingNum sid > 8 <;> by_cases h4 : parseSidingNum sid > 4 <;>
      simp [h8, h4, riskLevel]
  · unfold calculateBlockingRisk calculateBlockingRiskNum
    by_cases h8 : parseSidingNum sid > 8 <;>
      simp [h8, h4, riskLevel]
  · cases slot <;> unfold calculateBlockingRiskNum <;>
      by_cases h8a : n1 > 8 <;> by_cases h8b : n2 > 8 <;>
      by_cases h4a : n1 > 4 <;> by_cases h4b : n2 > 4 <;>
      simp [h8a, h8b, h4a, h4b, riskLevel] <;> omega

/-- Witness for C8 at concrete siding numbers. -/
theorem c8_witness :
    parseSidingNum "S9" > 4 ∧
    riskLevel (calculateBlockingRisk "S9" Slot.a) <
      riskLevel (calculateBlockingRisk "S9" Slot.b) ∧
    (2 : Nat) ≤ 9 ∧
    riskLevel (calculateBlockingRiskNum 9 Slot.a) ≤
      riskLevel (calculateBlockingRiskNum 2 Slot.a) :=
  ⟨by decide, c8_blocking_risk_order.2.1 "S9" (by decide), by decide,
    c8_blocking_risk_order.2.2 Slot.a 2 9 (by decide)⟩

/-- Counterexample for C9 as stated: a successful `completeInspection`
is state-changing but appends two events (the inspection result and the
plan preview), not exactly one. -/
theorem c9_counterexample :
    completeInspection ctx0 tid1 "IL1" extCI1 sInsp ≠ sInsp ∧
    ¬ (completeInspection ctx0 tid1 "IL1" extCI1 sInsp).eventLog.length =
        sInsp.eventLog.length + 1 := by
  refine ⟨fun h => absurd (congrArg (fun st => st.eventLog.length) h) (by decide), by decide⟩

/-- C9 amended: train creation and the three successful assignment
operations append exactly one event; a successful inspection or
workshop completion appends exactly two (result plus plan preview); a
speed change appends none. -/
theorem c9_event_counts :
    ∀ (ctx : SimContext) (input : TrainInput) (eq : EnqueueExt) (ea : AssignExt)
      (ci : CompleteInspectionExt) (cw : CompleteWorkshopExt) (d : CommandData)
      (tid bid sid wid : String) (slotArg : Option Slot) (s : YardState),
    ((enqueueTrain input eq s).2.eventLog.length = s.eventLog.length + 1) ∧
    ((getA s.trains tid).isSome = true →
      (getA s.inspectionBays bid).any (fun bay => bay.status == BayStatus.free) = true →
      (assignTrainToInspection tid bid ea s).eventLog.length = s.eventLog.length + 1) ∧
    ((getA s.trains tid).isSome = true →
      (getA s.sidingSlots sid).any (fun sl => sl.occupiedBy.isNone) = true →
      (assignTrainToSiding tid sid slotArg ea s).eventLog.length = s.eventLog.length + 1) ∧
    ((getA s.trains tid).isSome = true →
      (getA s.workshopLines wid).any (fun w => w.occupiedBy.isNone) = true →
      (assignTrainToWorkshop tid wid ea s).eventLog.length = s.eventLog.length + 1) ∧
    (EngineInv s → (getA s.trains tid).isSome = true →
      (getA s.inspectionBays bid).any (fun bay => bay.occupiedBy == some tid) = true →
      (completeInspection ctx tid bid ci s).eventLog.length = s.eventLog.length + 2) ∧
    ((getA s.trains tid).isSome = true →
      (getA s.workshopLines wid).any (fun w => w.occupiedBy == some tid) = true →
      (completeWorkshop ctx tid wid cw s).eventLog.length = s.eventLog.length + 2) ∧
    ((speedCommand d s).eventLog = s.eventLog) := by
  intro ctx input eq ea ci cw d tid bid sid wid slotArg s
  refine ⟨enqueueTrain_log input eq s, ?_, ?_, ?_, ?_, ?_, ?_⟩
  · intro h1 h2
    cases hT : getA s.trains tid with
    | none => rw [hT] at h1; exact Bool.noConfusion h1
    | some train =>
      cases hB : getA s.inspectionBays bid with
      | none => rw [hB] at h2; exact Bool.noConfusion h2
      | some bay =>
          rw [hB] at h2
          exact assignInspection_log tid bid ea s train bay hT hB (beq_iff_eq.mp h2)
  · intro h1 h2
    cases hT : getA s.trains tid with
    | none => rw [hT] at h1; exact Bool.noConfusion h1
    | some train =>
      cases hS : getA s.sidingSlots sid with
      | none => rw [hS] at h2; exact Bool.noConfusion h2
      | some sl =>
          rw [hS] at h2
          exact assignSiding_log tid sid slotArg ea s train sl hT hS
            (Option.isNone_iff_eq_none.mp h2)
  · intro h1 h2
    cases hT : getA s.trains tid with
    | none => rw [hT] at h1; exact Bool.noConfusion h1
    | some train =>
      cases hW : getA s.workshopLines wid with
      | none => rw [hW] at h2; exact Bool.noConfusion h2
      | some w =>
          rw [hW] at h2
          exact assignWorkshop_log tid wid ea s train w hT hW
            (Option.isNone_iff_eq_none.mp h2)
  · intro hinv h1 h2
    obtain ⟨hndT, _, _, _, hIds, _, _, _⟩ := hinv
    cases hT : getA s.trains tid with
    | none => rw [hT] at h1; exact Bool.noConfusion h1
    | some train =>
      cases hB : getA s.inspectionBays bid with
      | none => rw [hB] at h2; exact Bool.noConfusion h2
      | some bay =>
          rw [hB] at h2
          exact completeInspection_log ctx tid bid ci s train bay hndT hIds hT hB
            (beq_iff_eq.mp h2)
  · intro h1 h2
    cases hT : getA s.trains tid with
    | none => rw [hT] at h1; exact Bool.noConfusion h1
    | some train =>
      cases hW : getA s.workshopLines wid with
      | none => rw [hW] at h2; exact Bool.noConfusion h2
      | some w =>
          rw [hW] at h2
          exact completeWorkshop_log ctx tid wid cw s train w hT hW (beq_iff_eq.mp h2)
  · unfold speedCommand
    split
    · split
      · rfl
      · rfl
    · rfl

/-- Witness for C9 at concrete states from the scenario trace. -/
theorem c9_witness :
    (enqueueTrain input1 extFit (initState defn0 0)).2.eventLog.length =
      (initState defn0 0).eventLog.length + 1 ∧
    (assignTrainToInspection tid1 "IL1" { now := 0, evId := "k1" } sArr).eventLog.length =
      sArr.eventLog.length + 1 ∧
    (assignTrainToSiding tid1 "S2a" none { now := 0, evId := "k2" } sArr).eventLog.length =
      sArr.eventLog.length + 1 ∧
    (assignTrainToWorkshop tid1 "WL1" { now := 0, evId := "k3" } sArr).eventLog.length =
      sArr.eventLog.length + 1 ∧
    (completeInspection ctx0 tid1 "IL1" extCI1 sInsp).eventLog.length =
      sInsp.eventLog.length + 2 ∧
    (completeWorkshop ctx0 tid1 "WL1"
      { now := 4, evUpdated := "ev11", evPreview := "ev12" } sWs).eventLog.length =
      sWs.eventLog.length + 2 ∧
    (speedCommand cmdDataSpeed5 sArr).eventLog = sArr.eventLog := by
  refine ⟨(c9_event_counts ctx0 input1 extFit { now := 0, evId := "k1" } extCI1
      { now := 4, evUpdated := "ev11", evPreview := "ev12" }
      cmdDataSpeed5
      tid1 "IL1" "S2a" "WL1" none (initState defn0 0)).1,
    (c9_event_counts ctx0 input1 extFit { now := 0, evId := "k1" } extCI1
      { now := 4, evUpdated := "ev11", evPreview := "ev12" }
      cmdDataSpeed5
      tid1 "IL1" "S2a" "WL1" none sArr).2.1 (by decide) (by decide),
    (c9_event_counts ctx0 input1 extFit { now := 0, evId := "k2" } extCI1
      { now := 4, evUpdated := "ev11", evPreview := "ev12" }
      cmdDataSpeed5
      tid1 "IL1" "S2a" "WL1" none sArr).2.2.1 (by decide) (by decide),
    (c9_event_counts ctx0 input1 extFit { now := 0, evId := "k3" } extCI1
      { now := 4, evUpdated := "ev11", evPreview := "ev12" }
      cmdDataSpeed5
      tid1 "IL1" "S2a" "WL1" none sArr).2.2.2.1 (by decide) (by decide),
    (c9_event_counts ctx0 input1 extFit { now := 0, evId := "k4" } extCI1
      { now := 4, evUpdated := "ev11", evPreview := "ev12" }
      cmdDataSpeed5
      tid1 "IL1" "S2a" "WL1" none sInsp).2.2.2.2.1 (by decide) (by decide) (by decide),
    (c9_event_counts ctx0 input1 extFit { now := 0, evId := "k1" } extCI1
      { now := 4, evUpdated := "ev11", evPreview := "ev12" }
      cmdDataSpeed5
      tid1 "IL1" "S2a" "WL1" none sWs).2.2.2.2.2.1 (by decide) (by decide),
    (c9_event_counts ctx0 input1 extFit { now := 0, evId := "k1" } extCI1
      { now := 4, evUpdated := "ev11", evPreview := "ev12" }
      cmdDataSpeed5
      tid1 "IL1" "S2a" "WL1" none sArr).2.2.2.2.2.2⟩

/-- Counterexample for C10 as stated: a caller-supplied fitness of 0 is
falsy in JS (`trainData.fitness || random`), so it is not kept - with a
fitness draw of 1/2 the created train gets the random default 50
instead of the supplied 0. -/
theorem c10_counterexample :
    inputFit0.fitness = some 0 ∧
    (getA (enqueueTrain inputFit0 extFit (initState defn0 0)).2.trains
        (enqueueTrain inputFit0 extFit (initState defn0 0)).1).map
      (fun t => t.fitness) = some 50 := by
  refine ⟨rfl, ?_⟩
  have hget : getA (enqueueTrain inputFit0 extFit (initState defn0 0)).2.trains
      (enqueueTrain inputFit0 extFit (initState defn0 0)).1 =
      some (newTrain inputFit0 extFit (initState defn0 0)) := getA_setA_self _ _ _
  rw [hget]
  have hfit : (newTrain inputFit0 extFit (initState defn0 0)).fitness =
      (mkRat 1 2 * mkRat 100 1).floor := rfl
  have hval : mkRat 1 2 * mkRat 100 1 = (50 : ℚ) := by
    rw [Rat.mkRat_one, Rat.mkRat_eq_div]
    norm_num
  simp only [Option.map_some', hfit, hval]
  norm_num [Rat.floor_def']

/-- C10 amended: `enqueueTrain` creates the train at the entry node with
status `arriving` under the generated id; supplied truthy attribute
values are kept (a supplied 0 fitness or mileage and a supplied empty
number string are falsy in JS and are defaulted as if omitted); the
failure list, job card, priority and departSoon flags are kept whenever
supplied; omitted fitness and mileage default to random draws in
[0, 100) and [0, 50000). -/
theorem c10_enqueue_contract :
    ∀ (input : TrainInput) (ext : EnqueueExt) (s : YardState),
    0 ≤ ext.randF → ext.randF < 1 → 0 ≤ ext.randM → ext.randM < 1 →
    ∃ t, getA (enqueueTrain input ext s).2.trains (enqueueTrain input ext s).1 = some t ∧
      t.id = (enqueueTrain input ext s).1 ∧
      t.status = TrainStatus.arriving ∧
      t.locationNodeId = "E1" ∧
      t.number = jsOrString input.number ("T" ++ toString (s.trains.length + 1)) ∧
      t.fitness = jsOrInt input.fitness (ext.randF * mkRat 100 1).floor ∧
      t.mileage = jsOrInt input.mileage (ext.randM * mkRat 50000 1).floor ∧
      t.failures = input.failures.getD [] ∧
      t.jobCard = input.jobCard.getD { tasks := [] } ∧
      t.priority = input.priority.getD false ∧
      t.departSoon = input.departSoon.getD false ∧
      (input.fitness = none → 0 ≤ t.fitness ∧ t.fitness < 100) ∧
      (input.mileage = none → 0 ≤ t.mileage ∧ t.mileage < 50000) := by
  intro input ext s hf0 hf1 hm0 hm1
  have h100 : mkRat 100 1 = (100 : ℚ) := by rw [Rat.mkRat_one]; norm_num
  have h50000 : mkRat 50000 1 = (50000 : ℚ) := by rw [Rat.mkRat_one]; norm_num
  have hflb : (0 : Int) ≤ (ext.randF * mkRat 100 1).floor := by
    refine Rat.le_floor.mpr ?_
    rw [h100]
    push_cast
    exact mul_nonneg hf0 (by norm_num)
  have hfub : (ext.randF * mkRat 100 1).floor < 100 := by
    by_contra hcon
    push_neg at hcon
    have h2 := Rat.le_floor.mp hcon
    rw [h100] at h2
    push_cast at h2
    have h3 : ext.randF * 100 < 100 := by
      have := mul_lt_mul_of_pos_right hf1 (show (0:ℚ) < 100 by norm_num)
      rwa [one_mul] at this
    linarith
  have hmlb : (0 : Int) ≤ (ext.randM * mkRat 50000 1).floor := by
    refine Rat.le_floor.mpr ?_
    rw [h50000]
    push_cast
    exact mul_nonneg hm0 (by norm_num)
  have hmub : (ext.randM * mkRat 50000 1).floor < 50000 := by
    by_contra hcon
    push_neg at hcon
    have h2 := Rat.le_floor.mp hcon
    rw [h50000] at h2
    push_cast at h2
    have h3 : ext.randM * 50000 < 50000 := by
      have := mul_lt_mul_of_pos_right hm1 (show (0:ℚ) < 50000 by norm_num)
      rwa [one_mul] at this
    linarith
  refine ⟨newTrain input ext s, getA_setA_self _ _ _, rfl, rfl, rfl, rfl, rfl, rfl,
    rfl, rfl, rfl, rfl, ?_, ?_⟩
  · intro hnone
    have : (newTrain input ext s).fitness = (ext.randF * mkRat 100 1).floor := by
      show jsOrInt input.fitness _ = _
      rw [hnone]
      rfl
    rw [this]
    exact ⟨hflb, hfub⟩
  · intro hnone
    have : (newTrain input ext s).mileage = (ext.randM * mkRat 50000 1).floor := by
      show jsOrInt input.mileage _ = _
      rw [hnone]
      rfl
    rw [this]
    exact ⟨hmlb, hmub⟩

/-- Witness for C10: applying the contract to the concrete input and
external draws of the scenario. -/
theorem c10_witness :
    ((0 : ℚ) ≤ extFit.randF ∧ extFit.randF < 1) ∧
    (getA (enqueueTrain input1 extFit (initState defn0 0)).2.trains
        (enqueueTrain input1 extFit (initState defn0 0)).1).map
      (fun t => t.status) = some TrainStatus.arriving := by
  obtain ⟨t, hget, _, hstatus, _⟩ :=
    c10_enqueue_contract input1 extFit (initState defn0 0)
      (by decide) (by decide) (by decide) (by decide)
  refine ⟨⟨by decide, by decide⟩, ?_⟩
  rw [hget]
  simp [hstatus]
